import Mathlib

/-!
Verification of the CRM backend's segment rule engine, message
personalization, campaign delivery pipeline and statistics endpoints.

The definitions below are a shallow embedding of the TypeScript source:

* `src/services/segmentRules.ts` — `evaluateRule`, `compare`;
* the segments controller — `fixRuleStructure`;
* `src/services/messagePersonalization.ts` — `personalizeMessage`,
  `personalizeMessages`, `validateTemplate`, `getAvailablePlaceholders`;
* `src/services/messageQueueService.ts` — `addToQueue`, `processQueue`,
  `getQueueStats`;
* `src/services/campaignDeliveryService.ts` — `createAndDeliverCampaign`;
* the campaigns controller — `createCampaignWithVendorAPI`, `deliverCampaign`;
* `src/controllers/deliveryReceipt.ts` — `handleDeliveryReceipt`;
* the campaign-stats controller — `getCampaignStats`.

JavaScript-specific behaviour that the control flow depends on is modelled
explicitly: string/array truthiness (`""` and `undefined` are falsy, every
array — including `[]` — is truthy), `||` defaulting, `?? 0` defaulting,
`Math.round` (half towards plus infinity), and the global literal
`String.prototype.replace` used for placeholder substitution.  Randomness
(delivery outcome, error-reason draw), wall-clock time and fresh Mongo ids
are externalized as explicit parameters.  Machine numbers are modelled as
`Int`/`ℚ`.
-/

set_option maxRecDepth 20000

namespace CRM

/-! ## JavaScript string and truthiness primitives -/

/-- JS `a || b` on strings: the empty string is falsy. -/
def jsOrStr (a b : String) : String := if a = "" then b else a

/-- JS `a || b` where `a` is a possibly-undefined string. -/
def jsOrOptStr (a : Option String) (b : String) : String :=
  match a with
  | some s => if s = "" then b else s
  | none => b

/-- JS truthiness of a possibly-undefined string. -/
def truthyOptStr (a : Option String) : Bool :=
  match a with
  | some s => s ≠ ""
  | none => false

/-- JS `String.prototype.toLowerCase` (the source only lowercases ASCII
greetings, where `Char.toLower` agrees with JS). -/
def jsToLower (s : String) : String := ⟨s.data.map Char.toLower⟩

/-- JS `String.prototype.startsWith`. -/
def strStartsWith (s p : String) : Bool := p.data.isPrefixOf s.data

/-- Replace every (non-overlapping, left-to-right) occurrence of `pat` by
`rep`, as JS `s.replace(/pat/g, rep)` does for a literal pattern.  The
recursion is driven by a fuel argument that starts at the length of the
string; when `pat` is non-empty (every pattern in the source is) each step
consumes at least one character, so the fuel never runs out. -/
def replaceAllAux (pat rep : List Char) : Nat → List Char → List Char
  | _, [] => []
  | 0, s => s
  | fuel + 1, c :: cs =>
    if pat.isPrefixOf (c :: cs) then
      rep ++ replaceAllAux pat rep fuel ((c :: cs).drop pat.length)
    else
      c :: replaceAllAux pat rep fuel cs

/-- JS `s.replace(/pat/g, rep)` for a literal pattern `pat`.  (`$`-escape
sequences in the replacement string are not interpreted; no replacement
value produced by this code base uses them.) -/
def jsReplace (s pat rep : String) : String :=
  ⟨replaceAllAux pat.data rep.data s.data.length s.data⟩

/-! ## Data model (Mongoose schemas)

`_id` values and timestamps are modelled as numbers.  Dates are integers
(the unit is irrelevant to the verified claims; day resolution is assumed
by the `inactive_days` rule exactly as `dayjs().diff(last, 'day')` is the
number of days between the two instants). -/

/-- Status enum shared by `CommunicationLog` and `SentMessage`
(`'PENDING' | 'QUEUED' | 'SENT' | 'FAILED'`). -/
inductive DeliveryStatus where
  | PENDING | QUEUED | SENT | FAILED
deriving DecidableEq, Repr

/-- Campaign status enum. -/
inductive CampaignStatus where
  | DRAFT | ACTIVE | PAUSED | COMPLETED | CANCELLED
deriving DecidableEq, Repr

/-- `Customer` document. `spend`/`visits` have schema default `0` but the
evaluator still guards with `?? 0`, hence `Option`. -/
structure Customer where
  id : Nat
  userId : Nat
  name : String
  email : String
  phone : Option String
  spend : Option Int
  visits : Option Int
  last_active : Option Int
  created_at : Int
deriving DecidableEq, Repr

/-! ## Rule evaluator (`segmentRules.ts`)

A rule node is a dynamic JS object.  `hasFieldKey` models `'field' in rule`
(key presence, even with an `undefined` value); `field`, `op`, `operator`
and `value` are the key values (`none` = absent or `undefined`); `andL` /
`orL` are `none` when the key is absent and `some l` when it holds an
array — note that in JS *every* array is truthy, including `[]`. -/

inductive JRule where
  | mk (hasFieldKey : Bool) (field : Option String) (op : Option String)
       (operator : Option String) (value : Option Int)
       (andL : Option (List JRule)) (orL : Option (List JRule)) : JRule
deriving Repr

/-- The `compare(a, op, b)` helper of `segmentRules.ts`.  `b` may be
`undefined` (a malformed rule): then JS yields `false` for every relational
operator and for `===`, and `true` for `!==`; an unrecognized operator
falls through to `false`. -/
def compareJs (a : Int) (op : Option String) (b : Option Int) : Bool :=
  match b with
  | some n =>
    match op with
    | some o =>
      if o = ">" then a > n
      else if o = ">=" then a ≥ n
      else if o = "<" then a < n
      else if o = "<=" then a ≤ n
      else if o = "==" then a = n
      else if o = "!=" then a ≠ n
      else false
    | none => false
  | none =>
    match op with
    | some o =>
      if o = ">" then false
      else if o = ">=" then false
      else if o = "<" then false
      else if o = "<=" then false
      else if o = "==" then false
      else if o = "!=" then true
      else false
    | none => false

/-- `customer[rule.field] ?? 0`.  The typed rule grammar only admits
`spend`, `visits` and `inactive_days` (the latter is handled before this
lookup); any other field name reads `undefined` and defaults to `0`. -/
def customerFieldValue (c : Customer) (f : String) : Int :=
  if f = "spend" then c.spend.getD 0
  else if f = "visits" then c.visits.getD 0
  else 0

mutual

/-- `evaluateRule(customer, rule)` from `segmentRules.ts`.  `now` is the
current time (`dayjs()`), in days, used for the derived `inactive_days`
field; a customer that was never active gets `Number.MAX_SAFE_INTEGER`
days.  Key subtlety carried over from JS: `if (rule.and)` is a truthiness
test and an empty array is truthy, so a present-but-empty `and` list short
circuits to the vacuous `every` and the `or` list is never consulted. -/
def evaluateRule (now : Int) (c : Customer) : JRule → Bool
  | .mk hasF f op _ v a o =>
    if hasF then
      if f = some "inactive_days" then
        let days : Int :=
          match c.last_active with
          | some last => now - last
          | none => 9007199254740991
        compareJs days op v
      else
        compareJs (customerFieldValue c (f.getD "")) op v
    else
      match a with
      | some l => evalAnd now c l
      | none =>
        match o with
        | some l => evalOr now c l
        | none => true

/-- `rule.and.every((r) => evaluateRule(customer, r))`. -/
def evalAnd (now : Int) (c : Customer) : List JRule → Bool
  | [] => true
  | r :: rs => evaluateRule now c r && evalAnd now c rs

/-- `rule.or.some((r) => evaluateRule(customer, r))`. -/
def evalOr (now : Int) (c : Customer) : List JRule → Bool
  | [] => false
  | r :: rs => evaluateRule now c r || evalOr now c rs

end

/-! ## Rule normalization (`fixRuleStructure`, segments controller) -/

/-- The per-entry mapping `{field: rule.field, op: rule.operator || rule.op,
value: rule.value}` applied to the members of an `and`/`or` array.  The
output object literal always has the `field`, `op` and `value` keys (their
values may be `undefined`), and no `and`/`or`/`operator` keys. -/
def toFixedLeaf (r : JRule) : JRule :=
  match r with
  | .mk _ f op opr v _ _ =>
    .mk true f (if truthyOptStr opr then opr else op) none v none none

/-- `fixRuleStructure(rules)` from the segments controller.  `rules.and`
and `rules.or` are truthiness tests (any array, `[]` included, is truthy);
`rules.field` is truthy for a non-empty string. -/
def fixRuleStructure (r : JRule) : JRule :=
  match r with
  | .mk hasF f op opr v a o =>
    match a with
    | some l =>
      .mk false none none none none (some (l.map toFixedLeaf)) (some (o.getD []))
    | none =>
      match o with
      | some l =>
        .mk false none none none none (some []) (some (l.map toFixedLeaf))
      | none =>
        if truthyOptStr f then
          .mk true f (if truthyOptStr opr then opr else op) none v none none
        else
          .mk hasF f op opr v a o

/-! ## Message personalization (`messagePersonalization.ts`) -/

/-- Campaign-context custom data (`customData` argument; every key
optional). -/
structure CustomData where
  discount : Option String
  storeName : Option String
  couponCode : Option String
deriving DecidableEq, Repr

/-- The JS default `customData = {}`. -/
def CustomData.empty : CustomData := ⟨none, none, none⟩

/-- The `PersonalizationData` record built at the top of
`personalizeMessage` (all defaults already applied except `customerPhone`,
which the source keeps optional). -/
structure PersonalizationData where
  customerName : String
  customerEmail : String
  customerPhone : Option String
  customerSpend : Int
  customerVisits : Int
  lastActive : String
  discount : String
  storeName : String
  couponCode : String
deriving DecidableEq, Repr

/-- Stand-in for `new Date(d).toLocaleDateString()`.  The claims never
inspect the rendered date, only whether the customer was ever active; any
brace-free rendering works, so the numeral is used. -/
def formatDate (d : Int) : String := toString d

/-- Construction of `personalizationData` in `personalizeMessage`. -/
def buildPersonalizationData (c : Customer) (fallbackName : String)
    (cd : CustomData) : PersonalizationData :=
  { customerName := jsOrStr c.name fallbackName
    customerEmail := c.email
    customerPhone := c.phone
    customerSpend := c.spend.getD 0
    customerVisits := c.visits.getD 0
    lastActive :=
      match c.last_active with
      | some d => formatDate d
      | none => "Never"
    discount := jsOrOptStr cd.discount "10"
    storeName := jsOrOptStr cd.storeName "Our Store"
    couponCode := jsOrOptStr cd.couponCode "WELCOME10" }

/-- The thirteen `replace(/\{...\}/g, ...)` substitutions of
`personalizeMessage`, as (pattern, replacement) pairs in source order. -/
def substitutionPairs (d : PersonalizationData) : List (String × String) :=
  [("{customerName}", d.customerName),
   ("{customerEmail}", d.customerEmail),
   ("{customerPhone}", jsOrOptStr d.customerPhone "N/A"),
   ("{customerSpend}", toString d.customerSpend),
   ("{customerVisits}", toString d.customerVisits),
   ("{lastActive}", jsOrStr d.lastActive "Never"),
   ("{name}", d.customerName),
   ("{Name}", d.customerName),
   ("{email}", d.customerEmail),
   ("{phone}", jsOrOptStr d.customerPhone "N/A"),
   ("{discount}", jsOrStr d.discount "10"),
   ("{storeName}", jsOrStr d.storeName "Our Store"),
   ("{couponCode}", jsOrStr d.couponCode "WELCOME10")]

/-- The sequential application of the thirteen `replace` calls of
`personalizeMessage`, in source order. -/
def applyPlaceholders (message : String) (d : PersonalizationData) : String :=
  (substitutionPairs d).foldl (fun m pr => jsReplace m pr.1 pr.2) message

/-- The greeting test of `personalizeMessage`: the (substituted) message,
lowercased, starts with `"hi "`, `"hello "` or `"dear "`. -/
def startsWithGreeting (s : String) : Bool :=
  strStartsWith (jsToLower s) "hi " ||
  strStartsWith (jsToLower s) "hello " ||
  strStartsWith (jsToLower s) "dear "

/-- Return type of `personalizeMessage`. -/
structure PersonalizedMessage where
  originalMessage : String
  personalizedMessage : String
  personalizationData : PersonalizationData
deriving DecidableEq, Repr

/-- `MessagePersonalizationService.personalizeMessage`. -/
def personalizeMessage (message : String) (c : Customer)
    (fallbackName : String) (cd : CustomData) : PersonalizedMessage :=
  let d := buildPersonalizationData c fallbackName cd
  let m := applyPlaceholders message d
  let m :=
    if startsWithGreeting m then m
    else "Hi " ++ d.customerName ++ ", " ++ m
  ⟨message, m, d⟩

/-- `MessagePersonalizationService.personalizeMessages` (batch form). -/
def personalizeMessages (message : String) (cs : List Customer)
    (fallbackName : String) (cd : CustomData) : List PersonalizedMessage :=
  cs.map (fun c => personalizeMessage message c fallbackName cd)

/-- `MessagePersonalizationService.getAvailablePlaceholders`. -/
def availablePlaceholders : List String :=
  ["{customerName}", "{customerEmail}", "{customerPhone}",
   "{customerSpend}", "{customerVisits}", "{lastActive}",
   "{name}", "{Name}", "{email}", "{phone}",
   "{discount}", "{storeName}", "{couponCode}"]

/-- Scanner for `message.match(/\{[^}]+\}/g)`: walks left to right; at a
`'{'` it tries to match one-or-more non-`'}'` characters followed by
`'}'` (the greedy `[^}]+` stops at the first `'}'`); on success the match
(braces included) is collected and scanning resumes after it, otherwise
the scan advances one character.  Fuel starts at the string length; each
step consumes at least one character. -/
def scanPlaceholdersAux : Nat → List Char → List String
  | _, [] => []
  | 0, _ => []
  | fuel + 1, c :: cs =>
    if c = '{' then
      let mid := cs.takeWhile (fun ch => ch ≠ '}')
      match cs.dropWhile (fun ch => ch ≠ '}') with
      | _ :: rest =>
        if mid.isEmpty then scanPlaceholdersAux fuel cs
        else (⟨'{' :: (mid ++ ['}'])⟩ : String) :: scanPlaceholdersAux fuel rest
      | [] => scanPlaceholdersAux fuel cs
    else scanPlaceholdersAux fuel cs

/-- `message.match(placeholderRegex) || []` in `validateTemplate`. -/
def foundPlaceholders (message : String) : List String :=
  scanPlaceholdersAux message.data.length message.data

/-- Return type of `validateTemplate`. -/
structure TemplateValidation where
  isValid : Bool
  invalidPlaceholders : List String
deriving DecidableEq, Repr

/-- `MessagePersonalizationService.validateTemplate`. -/
def validateTemplate (message : String) : TemplateValidation :=
  let found := foundPlaceholders message
  let invalid := found.filter (fun p => !(availablePlaceholders.contains p))
  ⟨invalid.length == 0, invalid⟩

/-! ## Stored delivery records -/

/-- `CommunicationLog` document. -/
structure CommLog where
  id : Nat
  userId : Nat
  campaign_id : Option Nat
  customer_id : Option Nat
  status : DeliveryStatus
  message : String
  vendor_message_id : Option String
  sent_at : Option Int
  error_message : Option String
  updated_at : Int
deriving DecidableEq, Repr

/-- `SentMessage` document.  The inert `discountInfo` and
`personalizationData` metadata sub-objects carry no control flow anywhere
in the source and are omitted. -/
structure SentMsg where
  id : Nat
  userId : Nat
  recipientEmail : String
  recipientName : Option String
  subject : String
  textContent : String
  htmlContent : Option String
  status : DeliveryStatus
  sentAt : Int
  messageId : Option String
  errorMessage : Option String
  campaignId : Option Nat
  createdAt : Int
  updatedAt : Int
deriving DecidableEq, Repr

/-! ## Campaign statistics (`getCampaignStats`, stats controller) -/

/-- JS `Math.round` (round half towards plus infinity; all rates here are
non-negative, where this agrees with `Math.round` exactly). -/
def jsMathRound (x : ℚ) : ℤ := ⌊x + 1 / 2⌋

/-- `Math.round(rate * 100) / 100` — round to two decimal places. -/
def round2 (x : ℚ) : ℚ := (jsMathRound (x * 100) : ℚ) / 100

/-- The `countDocuments` filter `\x7bcampaign_id, userId\x7d`. -/
def logMatches (campaignId userId : Nat) (l : CommLog) : Bool :=
  decide (l.campaign_id = some campaignId) && decide (l.userId = userId)

/-- The `countDocuments` filter `\x7bcampaign_id, userId, status\x7d`. -/
def logMatchesStatus (campaignId userId : Nat) (st : DeliveryStatus)
    (l : CommLog) : Bool :=
  logMatches campaignId userId l && decide (l.status = st)

/-- Result record of `getCampaignStats` (the `recentActivity` listing is
not part of any claim and is omitted). -/
structure CampaignStats where
  total : Nat
  sent : Nat
  failed : Nat
  pending : Nat
  queued : Nat
  deliveryRate : ℚ
  successRate : ℚ
  failureRate : ℚ
deriving DecidableEq, Repr

/-- `getCampaignStats` from the campaign-stats controller: five
`countDocuments` calls filtered by campaign and owner (the latter four
additionally by status), then the three rates, each rounded to two
decimals and `0` when `total` is zero. -/
def getCampaignStats (campaignId userId : Nat) (logs : List CommLog) :
    CampaignStats :=
  let total := logs.countP (logMatches campaignId userId)
  let sent := logs.countP (logMatchesStatus campaignId userId .SENT)
  let failed := logs.countP (logMatchesStatus campaignId userId .FAILED)
  let pending := logs.countP (logMatchesStatus campaignId userId .PENDING)
  let queued := logs.countP (logMatchesStatus campaignId userId .QUEUED)
  { total := total
    sent := sent
    failed := failed
    pending := pending
    queued := queued
    deliveryRate :=
      round2 (if total > 0 then (((sent : ℚ) + (failed : ℚ)) / (total : ℚ)) * 100 else 0)
    successRate := round2 (if total > 0 then ((sent : ℚ) / (total : ℚ)) * 100 else 0)
    failureRate := round2 (if total > 0 then ((failed : ℚ) / (total : ℚ)) * 100 else 0) }

/-! ## Queue statistics (`MessageQueueService.getQueueStats`) -/

/-- Result of `getQueueStats`. -/
structure QueueStats where
  QUEUED : Nat
  SENT : Nat
  FAILED : Nat
  PENDING : Nat
deriving DecidableEq, Repr

/-- `MessageQueueService.getQueueStats`: the aggregation pipeline groups
*every* sent-message record by status — it has no `$match` stage, so no
owner filter is applied (faithful to the source). -/
def getQueueStats (msgs : List SentMsg) : QueueStats :=
  { QUEUED := msgs.countP (fun m => decide (m.status = .QUEUED))
    SENT := msgs.countP (fun m => decide (m.status = .SENT))
    FAILED := msgs.countP (fun m => decide (m.status = .FAILED))
    PENDING := msgs.countP (fun m => decide (m.status = .PENDING)) }

/-- The 32-log campaign store used to refute claim C5: one SENT and 31
FAILED logs of campaign 1, owner 1; nothing pending or queued. -/
def c5CounterLogs : List CommLog :=
  List.replicate 31 ⟨0, 1, some 1, some 1, .FAILED, "m", some "x", none, none, 0⟩ ++
    [⟨0, 1, some 1, some 1, .SENT, "m", some "x", none, none, 0⟩]

/-! ## Application state

The Mongo collections as in-memory lists plus a fresh-id counter (Mongo
generates unique `_id`s; a counter models that). -/

/-- `Segment` document (only the fields the delivery pipeline reads). -/
structure Segment where
  id : Nat
  userId : Nat
  name : String
  rules_json : Option JRule

/-- `Campaign` document. -/
structure Campaign where
  id : Nat
  userId : Nat
  segment_id : Nat
  message : String
  subject : String
  status : CampaignStatus
  created_at : Int
deriving DecidableEq, Repr

/-- `User` document (only the fields `deliverCampaign` reads). -/
structure User where
  id : Nat
  email : String
deriving DecidableEq, Repr

/-- The persistent stores. -/
structure AppState where
  segments : List Segment
  customers : List Customer
  users : List User
  campaigns : List Campaign
  sentMessages : List SentMsg
  commLogs : List CommLog
  nextId : Nat

/-- Update the first list element satisfying `p` (the semantics of
`findByIdAndUpdate` / `findOneAndUpdate`, which update a single
document). -/
def updateFirst {α : Type} (p : α → Bool) (f : α → α) : List α → List α
  | [] => []
  | x :: xs => if p x then f x :: xs else x :: updateFirst p f xs

/-! ## Message queue service (`messageQueueService.ts`) -/

/-- The fixed catalog of failure reasons. -/
def failureReasons : List String :=
  ["Invalid email address", "Recipient mailbox full", "Domain not found",
   "Recipient blocked sender", "Temporary delivery failure", "Network timeout",
   "Recipient server unavailable", "Message too large", "Spam filter blocked",
   "Authentication failed"]

/-- `QueueMessage` as accepted by `addToQueue`. -/
structure QueueMessage where
  messageId : String
  recipientEmail : String
  recipientName : Option String
  subject : String
  textContent : String
  htmlContent : Option String
  userId : Nat
deriving DecidableEq, Repr

/-- `MessageQueueService.addToQueue`: persists one QUEUED sent-message
record and one QUEUED communication-log record (the latter without any
campaign or customer reference — the source does not set them). -/
def addToQueue (now : Int) (q : QueueMessage) (st : AppState) : AppState :=
  let sm : SentMsg :=
    { id := st.nextId, userId := q.userId, recipientEmail := q.recipientEmail,
      recipientName := q.recipientName, subject := q.subject,
      textContent := q.textContent, htmlContent := q.htmlContent,
      status := .QUEUED, sentAt := now, messageId := some q.messageId,
      errorMessage := none, campaignId := none, createdAt := now, updatedAt := now }
  let cl : CommLog :=
    { id := st.nextId + 1, userId := q.userId, campaign_id := none,
      customer_id := none, status := .QUEUED, message := q.textContent,
      vendor_message_id := some q.messageId, sent_at := some now,
      error_message := none, updated_at := now }
  { st with sentMessages := st.sentMessages ++ [sm],
            commLogs := st.commLogs ++ [cl], nextId := st.nextId + 2 }

/-- `findOne(\x7bstatus: 'QUEUED'\x7d).sort(\x7bcreatedAt: 1\x7d)`: the
QUEUED sent-message record with the least `createdAt` (first in store
order on ties).  Note: no owner filter — the drain loop serves all
owners. -/
def oldestQueued : List SentMsg → Option SentMsg
  | [] => none
  | m :: ms =>
    match oldestQueued ms with
    | none => if m.status = .QUEUED then some m else none
    | some b =>
      if m.status = .QUEUED then
        if m.createdAt ≤ b.createdAt then some m else some b
      else some b

/-- One tick of `MessageQueueService.processQueue`.  The random draw
(`Math.random() < 0.9`) and the drawn failure reason are parameters.  When
a QUEUED record exists, its terminal status is written back to the
sent-message record (by `_id`) and to the first communication-log record
with the same `vendor_message_id`; mongoose drops `undefined` update
values, so `errorMessage` is untouched on success and the log's `sent_at`
is untouched on failure. -/
def processQueue (isSuccess : Bool) (reason : String) (now : Int)
    (st : AppState) : AppState :=
  match oldestQueued st.sentMessages with
  | none => st
  | some m =>
    let finalStatus : DeliveryStatus := if isSuccess then .SENT else .FAILED
    let sms := updateFirst (fun r => decide (r.id = m.id))
      (fun r => { r with
                  status := finalStatus, sentAt := now,
                  errorMessage := if isSuccess then r.errorMessage else some reason,
                  updatedAt := now }) st.sentMessages
    let logs := updateFirst (fun l => decide (l.vendor_message_id = m.messageId))
      (fun l => { l with
                  status := finalStatus,
                  sent_at := if isSuccess then some now else l.sent_at,
                  error_message := if isSuccess then l.error_message else some reason,
                  updated_at := now }) st.commLogs
    { st with sentMessages := sms, commLogs := logs }

/-! ## Delivery receipt endpoint (`deliveryReceipt.ts`) -/

/-- Responses of `handleDeliveryReceipt` (the 500 path cannot occur in
the model — nothing throws). -/
inductive ReceiptResponse where
  | badRequest (error : String)
  | notFound (error : String)
  | ok
deriving DecidableEq, Repr

/-- The receipt request body. -/
structure ReceiptRequest where
  messageId : Option String
  status : Option String
  deliveredAt : Option Int
  errorMessage : Option String
  customerId : Option Nat
  campaignId : Option Nat
deriving DecidableEq, Repr

/-- `handleDeliveryReceipt`.  After validation `messageId` is truthy, so
the lookup always goes through `vendor_message_id` (the source's fallback
lookup by customer/campaign is unreachable).  There is **no** check of the
current status of the matched records: whatever status they hold, both are
overwritten with the receipt's status. -/
def handleDeliveryReceipt (now : Int) (r : ReceiptRequest) (st : AppState) :
    ReceiptResponse × AppState :=
  if !(truthyOptStr r.messageId) || !(truthyOptStr r.status) || r.deliveredAt.isNone then
    (.badRequest "Missing required fields", st)
  else if !(decide (r.status = some "SENT") || decide (r.status = some "FAILED")) then
    (.badRequest "Invalid status", st)
  else
    match st.commLogs.find? (fun l => decide (l.vendor_message_id = r.messageId)) with
    | none => (.notFound "Message not found", st)
    | some cl =>
      let newStatus : DeliveryStatus := if r.status = some "SENT" then .SENT else .FAILED
      let logs := updateFirst (fun l => decide (l.id = cl.id))
        (fun l => { l with
                    status := newStatus, updated_at := now,
                    sent_at := if r.status = some "SENT" then r.deliveredAt else l.sent_at,
                    error_message :=
                      if decide (r.status = some "FAILED") && truthyOptStr r.errorMessage then
                        r.errorMessage
                      else l.error_message }) st.commLogs
      let sms := updateFirst (fun m => decide (m.messageId = r.messageId))
        (fun m => { m with
                    status := newStatus,
                    sentAt := r.deliveredAt.getD m.sentAt,
                    errorMessage :=
                      if decide (r.status = some "FAILED") && truthyOptStr r.errorMessage then
                        r.errorMessage
                      else m.errorMessage }) st.sentMessages
      (.ok, { st with commLogs := logs, sentMessages := sms })

/-! ## Campaign delivery service (`campaignDeliveryService.ts`) -/

/-- One entry of `deliveryLogs` in the result of
`createAndDeliverCampaign`. -/
structure DeliveryLogEntry where
  customerId : String
  customerEmail : String
  status : DeliveryStatus
  messageId : String
  error : Option String
deriving DecidableEq, Repr

/-- `CampaignDeliveryResult`. -/
structure CampaignDeliveryResult where
  campaignId : String
  totalCustomers : Nat
  messagesQueued : Nat
  messagesSent : Nat
  messagesFailed : Nat
  deliveryLogs : List DeliveryLogEntry
deriving DecidableEq, Repr

/-- `getCustomersForSegment`: all the owner's customers filtered through
the rule evaluator; a segment without rules yields the empty list.  (The
source wraps each evaluation in a try/catch that falls back to `false`,
but the evaluator is total, so the catch never fires.) -/
def getCustomersForSegment (now : Int) (st : AppState) (seg : Segment) :
    List Customer :=
  let allCustomers := st.customers.filter (fun c => decide (c.userId = seg.userId))
  match seg.rules_json with
  | none => []
  | some r => allCustomers.filter (fun c => evaluateRule now c r)

/-- The unique message id
`campaign_$\x7bcampaign._id\x7d_$\x7bcustomer._id\x7d_$\x7bDate.now()\x7d`. -/
def mkMessageId (campaignId customerId : Nat) (t : Int) : String :=
  "campaign_" ++ toString campaignId ++ "_" ++ toString customerId ++ "_" ++ toString t

/-- The service's *private* `personalizeMessage` used only for the
subject line (different substitutions and defaults than the
personalization service; no greeting rule).  Callers never supply
`storeAddress`/`storePhone`, so those placeholders substitute to `''`. -/
def personalizeSubjectMsg (message : String) (c : Customer)
    (pd : Option CustomData) : String :=
  let m := jsReplace message "{customerName}" (jsOrStr c.name "Customer")
  let m := jsReplace m "{customerEmail}" (jsOrStr c.email "")
  let m := jsReplace m "{customerPhone}" (jsOrOptStr c.phone "")
  let m := jsReplace m "{customerSpend}"
    (match c.spend with | some n => toString n | none => "0")
  let m := jsReplace m "{customerVisits}"
    (match c.visits with | some n => toString n | none => "0")
  match pd with
  | some cd =>
    let m := jsReplace m "{storeName}" (jsOrOptStr cd.storeName "Your Store")
    let m := jsReplace m "{storeAddress}" ""
    let m := jsReplace m "{storePhone}" ""
    m
  | none => m

/-- The HTML wrapper built around the personalized message (header with
the subject, body with newlines turned into `<br>`, signature block with
the store name).  The inline CSS and indentation of the original template
string are abbreviated; no claim inspects them. -/
def mkHtml (subject text storeName : String) : String :=
  "<div><h2>" ++ subject ++ "</h2><div>" ++ jsReplace text "\n" "<br>" ++
    "</div><div><p>Best regards,<br>" ++ storeName ++ "</p></div></div>"

/-- The `deliveryLogs` entry pushed for customer `c` at iteration `i`:
QUEUED (no error) when `addToQueue` succeeded, FAILED with the thrown
error otherwise. -/
def campaignDeliveryEntry (times : Nat → Int) (oracle : Nat → Option String)
    (campId : Nat) (i : Nat) (c : Customer) : DeliveryLogEntry :=
  match oracle i with
  | none => ⟨toString c.id, c.email, .QUEUED, mkMessageId campId c.id (times i), none⟩
  | some e => ⟨toString c.id, c.email, .FAILED, mkMessageId campId c.id (times i), some e⟩

/-- The state transition of one iteration of `createAndDeliverCampaign`'s
loop: on success the personalized message is enqueued via `addToQueue`; on
a throw the catch block persists **nothing**. -/
def campaignDeliveryStep (times : Nat → Int) (oracle : Nat → Option String)
    (uid campId : Nat) (message : String) (subject : Option String)
    (pd : Option CustomData) (i : Nat) (c : Customer) (st : AppState) : AppState :=
  match oracle i with
  | none =>
    let pm := personalizeMessage message c "Valued Customer" (pd.getD CustomData.empty)
    let subjP :=
      if truthyOptStr subject then personalizeSubjectMsg (subject.getD "") c pd
      else "Campaign Email"
    let mid := mkMessageId campId c.id (times i)
    let html := mkHtml subjP pm.personalizedMessage
      (match pd with | some cd => jsOrOptStr cd.storeName "Your Store" | none => "Your Store")
    addToQueue (times i)
      ⟨mid, c.email, some c.name, subjP, pm.personalizedMessage, some html, uid⟩ st
  | some _ => st

/-- The per-customer loop of `createAndDeliverCampaign`.  `times i` is
`Date.now()` at iteration `i`; `oracle i = some e` means iteration `i`'s
`addToQueue` threw with message `e` (the only step of the try body that
can throw — personalization is total).  Returns
`(deliveryLogs, messagesQueued, messagesFailed, state)`; one entry is
pushed per customer and the loop always continues to the next customer. -/
def campaignDeliveryLoop (times : Nat → Int) (oracle : Nat → Option String)
    (uid campId : Nat) (message : String) (subject : Option String)
    (pd : Option CustomData) :
    Nat → List Customer → AppState →
      (List DeliveryLogEntry × Nat × Nat × AppState)
  | _, [], st => ([], 0, 0, st)
  | i, c :: cs, st =>
    let st1 := campaignDeliveryStep times oracle uid campId message subject pd i c st
    let rest := campaignDeliveryLoop times oracle uid campId message subject pd (i + 1) cs st1
    (campaignDeliveryEntry times oracle campId i c :: rest.1,
      (if (oracle i).isSome then rest.2.1 else rest.2.1 + 1),
      (if (oracle i).isSome then rest.2.2.1 + 1 else rest.2.2.1),
      rest.2.2.2)

/-- `CampaignDeliveryService.createAndDeliverCampaign`.  Key behaviour for
the claims: with zero matching customers it returns early — result
`campaignId` is the empty string, all counters are zero, and **no**
Campaign record is created and nothing is marked COMPLETED; the returned
`messagesSent`/`messagesFailed` are hard-coded `0` ("will be updated by
the queue processor"), and the campaign is left ACTIVE even on the happy
path. -/
def createAndDeliverCampaign (now : Int) (times : Nat → Int)
    (oracle : Nat → Option String) (userId segmentId : Nat) (message : String)
    (subject : Option String) (pd : Option CustomData) (st : AppState) :
    Except String (CampaignDeliveryResult × AppState) :=
  match st.segments.find? (fun s => decide (s.id = segmentId)) with
  | none => .error "Segment not found or access denied"
  | some seg =>
    if seg.userId ≠ userId then .error "Segment not found or access denied"
    else
      let customers := getCustomersForSegment now st seg
      if customers.isEmpty then
        .ok (⟨"", 0, 0, 0, 0, []⟩, st)
      else
        let campaign : Campaign :=
          ⟨st.nextId, userId, segmentId, message,
            jsOrOptStr subject "Campaign Email", .ACTIVE, now⟩
        let st1 := { st with campaigns := st.campaigns ++ [campaign],
                             nextId := st.nextId + 1 }
        let r := campaignDeliveryLoop times oracle userId campaign.id message
          subject pd 0 customers st1
        .ok (⟨toString campaign.id, customers.length, r.2.1, 0, 0, r.1⟩, r.2.2.2)

/-! ## Vendor-API campaign creation (campaigns controller) -/

/-- Responses of `createCampaignWithVendorAPI`. -/
inductive VendorCreateResponse where
  | badRequest (error : String)
  | notFound (error : String)
  | serverError (error : String)
  | ok (campaignId : Nat) (totalCustomers messagesQueued : Nat)
deriving DecidableEq, Repr

/-- The per-customer loop of `createCampaignWithVendorAPI`: one PENDING
communication-log record and one PENDING sent-message record per matching
customer.  The `axios.post` to the vendor is fire-and-forget (errors only
logged) and leaves the store untouched. -/
def vendorCreateLoop (times : Nat → Int) (campId uid : Nat)
    (subject : Option String) (cd : CustomData) :
    Nat → List (Customer × PersonalizedMessage) → AppState → AppState
  | _, [], st => st
  | i, (c, pm) :: rest, st =>
    let mid := mkMessageId campId c.id (times i)
    let cl : CommLog :=
      ⟨st.nextId, uid, some campId, some c.id, .PENDING,
        pm.personalizedMessage, some mid, none, none, times i⟩
    let sm : SentMsg :=
      ⟨st.nextId + 1, uid, c.email, some c.name,
        jsOrOptStr subject "Campaign Email", pm.personalizedMessage,
        some (mkHtml (jsOrOptStr subject "Campaign Email") pm.personalizedMessage
          (jsOrOptStr cd.storeName "Your Store")),
        .PENDING, times i, some mid, none, some campId, times i, times i⟩
    vendorCreateLoop times campId uid subject cd (i + 1) rest
      { st with commLogs := st.commLogs ++ [cl],
                sentMessages := st.sentMessages ++ [sm], nextId := st.nextId + 2 }

/-- `createCampaignWithVendorAPI` (campaigns controller).  Validation and
template check come first; a segment whose rules match **zero** customers
is rejected with a 400 error before any campaign is created.  A segment
without `rules_json` makes `evaluateRule(c, undefined)` throw on the first
customer, which the outer catch turns into a 500 — unless the owner has no
customers at all, in which case the filter never runs. -/
def createCampaignWithVendorAPI (now : Int) (times : Nat → Int) (userId : Nat)
    (segment_id : Option Nat) (message : Option String) (subject : Option String)
    (customData : Option CustomData) (discount_percentage : Option Int)
    (st : AppState) : VendorCreateResponse × AppState :=
  if segment_id.isNone || !(truthyOptStr message) then
    (.badRequest "segment_id and message are required", st)
  else
    let msg := message.getD ""
    if !(validateTemplate msg).isValid then
      (.badRequest "Invalid message template", st)
    else
      match st.segments.find?
        (fun s => decide (s.id = segment_id.getD 0) && decide (s.userId = userId)) with
      | none => (.notFound "Segment not found", st)
      | some seg =>
        let finalCustomData : CustomData :=
          match customData with
          | some cd => cd
          | none =>
            ⟨some (jsOrOptStr (discount_percentage.map (fun dp => toString dp)) "10"),
             some "Your Store",
             some ("WELCOME" ++
               (match discount_percentage with
                | some dp => if dp = 0 then "10" else toString dp
                | none => "10"))⟩
        let allCustomers := st.customers.filter (fun c => decide (c.userId = userId))
        match seg.rules_json with
        | none =>
          if allCustomers.isEmpty then
            (.badRequest "No customers found matching segment rules", st)
          else
            (.serverError "Failed to create campaign", st)
        | some r =>
          let matching := allCustomers.filter (fun c => evaluateRule now c r)
          if matching.isEmpty then
            (.badRequest "No customers found matching segment rules", st)
          else
            let campaign : Campaign :=
              ⟨st.nextId, userId, segment_id.getD 0, msg,
                jsOrOptStr subject "Campaign Email", .ACTIVE, now⟩
            let st1 := { st with campaigns := st.campaigns ++ [campaign],
                                 nextId := st.nextId + 1 }
            let pms := personalizeMessages msg matching "Valued Customer" finalCustomData
            let st2 := vendorCreateLoop times campaign.id userId subject
              finalCustomData 0 (matching.zip pms) st1
            (.ok campaign.id matching.length matching.length, st2)

/-! ## Legacy delivery path (`deliverCampaign`, campaigns controller) -/

/-- The sent-message record persisted for iteration `i` of
`deliverCampaign`'s loop (SENT with a campaign reference on success;
FAILED with the error, a `_failed` message id and — faithful to the
source — no campaign reference on a throw).  `nid` is the fresh `_id`. -/
def deliverStepSentMsg (times : Nat → Int) (oracle : Nat → Option String)
    (campId uid : Nat) (subject storeName : String) (i : Nat)
    (c : Customer) (pm : PersonalizedMessage) (nid : Nat) : SentMsg :=
  match oracle i with
  | none =>
    ⟨nid, uid, c.email, some c.name, subject, pm.personalizedMessage,
      some (mkHtml subject pm.personalizedMessage storeName),
      .SENT, times i, some (mkMessageId campId c.id (times i)), none,
      some campId, times i, times i⟩
  | some e =>
    ⟨nid, uid, c.email, some c.name, subject, pm.personalizedMessage,
      some (mkHtml subject pm.personalizedMessage storeName),
      .FAILED, times i, some (mkMessageId campId c.id (times i) ++ "_failed"),
      some e, none, times i, times i⟩

/-- The communication-log record persisted for iteration `i` of
`deliverCampaign`'s loop (SENT with the vendor message id and `sent_at`
on success; FAILED with the error and — faithful to the source — no
`vendor_message_id`/`sent_at` on a throw). -/
def deliverStepCommLog (times : Nat → Int) (oracle : Nat → Option String)
    (campId uid : Nat) (i : Nat) (c : Customer) (pm : PersonalizedMessage)
    (nid : Nat) : CommLog :=
  match oracle i with
  | none =>
    ⟨nid, uid, some campId, some c.id, .SENT, pm.personalizedMessage,
      some (mkMessageId campId c.id (times i)), some (times i), none, times i⟩
  | some e =>
    ⟨nid, uid, some campId, some c.id, .FAILED, pm.personalizedMessage,
      none, none, some e, times i⟩

/-- The per-customer loop of `deliverCampaign`.  `oracle i = some e` means
the primary `SentMessageModel.create` of iteration `i` threw with message
`e`; the catch block then persists the FAILED pair and the loop
continues; on success a SENT pair is persisted.  (The nested try around
the FAILED sent-message write and the write of the FAILED log are assumed
to succeed — storage failure of the failure-record itself is out of
scope.) -/
def deliverCampaignLoop (times : Nat → Int) (oracle : Nat → Option String)
    (campId uid : Nat) (subject storeName : String) :
    Nat → List (Customer × PersonalizedMessage) → AppState → AppState
  | _, [], st => st
  | i, (c, pm) :: rest, st =>
    deliverCampaignLoop times oracle campId uid subject storeName (i + 1) rest
      { st with
        sentMessages := st.sentMessages ++
          [deliverStepSentMsg times oracle campId uid subject storeName i c pm st.nextId],
        commLogs := st.commLogs ++
          [deliverStepCommLog times oracle campId uid i c pm (st.nextId + 1)],
        nextId := st.nextId + 2 }

/-- `deliverCampaign` (campaigns controller; fire-and-forget background
delivery for an already-created campaign).  Zero matching customers marks
the campaign COMPLETED and returns; a missing rule tree makes
`evaluateRule(c, undefined)` throw once any customer exists, and the
outer catch then marks the campaign CANCELLED; otherwise every customer
is processed through `deliverCampaignLoop` and the campaign is marked
COMPLETED. -/
def deliverCampaign (now : Int) (times : Nat → Int) (oracle : Nat → Option String)
    (campaignId segmentId : Nat) (message subject : String)
    (customData : Option CustomData) (st : AppState) : AppState :=
  match st.segments.find? (fun s => decide (s.id = segmentId)) with
  | none => st
  | some seg =>
    match st.users.find? (fun u => decide (u.id = seg.userId)) with
    | none => st
    | some user =>
      if user.email = "" then st
      else
        let setStatus := fun (cs : CampaignStatus) (s : AppState) =>
          { s with
            campaigns :=
              updateFirst (fun cp => decide (cp.id = campaignId))
                (fun cp => { cp with status := cs }) s.campaigns }
        let allCustomers := st.customers.filter (fun c => decide (c.userId = seg.userId))
        match seg.rules_json with
        | none =>
          if allCustomers.isEmpty then setStatus .COMPLETED st
          else setStatus .CANCELLED st
        | some r =>
          let matching := allCustomers.filter (fun c => evaluateRule now c r)
          if matching.isEmpty then setStatus .COMPLETED st
          else
            let storeNameStr :=
              jsOrOptStr (customData.bind (fun cd => cd.storeName)) "Your Store"
            let pdata : CustomData :=
              ⟨some (jsOrOptStr (customData.bind (fun cd => cd.discount)) "10"),
               some storeNameStr,
               some (jsOrOptStr (customData.bind (fun cd => cd.couponCode)) "WELCOME10")⟩
            let pms := personalizeMessages message matching "Valued Customer" pdata
            let st1 := deliverCampaignLoop times oracle campaignId seg.userId subject
              storeNameStr 0 (matching.zip pms) st
            setStatus .COMPLETED st1

/-! ## Claim C1 -/

/-- A store with one segment (spend > 1000) and one owner-7 customer whose
spend is 5 — the segment matches zero customers. -/
def c1State : AppState :=
  { segments := [⟨3, 7, "big spenders",
      some (.mk true (some "spend") (some ">") none (some 1000) none none)⟩],
    customers := [⟨11, 7, "Bob", "b@c.d", none, some 5, some 1, none, 0⟩],
    users := [], campaigns := [], sentMessages := [], commLogs := [],
    nextId := 20 }

/-! ## Helper lemmas about the delivery loops -/

/-- Default values used by `List.getD` in loop statements. -/
def dfltCommLog : CommLog := ⟨0, 0, none, none, .PENDING, "", none, none, none, 0⟩

/-- Default sent-message record for `List.getD`. -/
def dfltSentMsg : SentMsg :=
  ⟨0, 0, "", none, "", "", none, .PENDING, 0, none, none, none, 0, 0⟩

/-- Default delivery-log entry for `List.getD`. -/
def dfltEntry : DeliveryLogEntry := ⟨"", "", .PENDING, "", none⟩

/-- Default customer/message pair for `List.getD`. -/
def dfltPair : Customer × PersonalizedMessage :=
  (⟨0, 0, "", "", none, none, none, none, 0⟩,
   ⟨"", "", ⟨"", "", none, 0, 0, "", "", "", ""⟩⟩)

/-! ## Claim C4 -/

/-- A store with one segment matching its single customer (spend 5 > 0). -/
def c4State : AppState :=
  { segments := [⟨3, 7, "all",
      some (.mk true (some "spend") (some ">") none (some 0) none none)⟩],
    customers := [⟨11, 7, "Bob", "b@c.d", none, some 5, some 1, none, 0⟩],
    users := [], campaigns := [], sentMessages := [], commLogs := [],
    nextId := 20 }

/-! # Theorems

The claim theorems, their witnesses and counterexamples, and the helper
lemmas they build on. -/

/-! ## Helper lemmas about the rule evaluator -/

/-- `rule.or.some(...)` is `true` iff some branch evaluates to `true`. -/
theorem evalOr_iff (now : Int) (c : Customer) (l : List JRule) :
    evalOr now c l = true ↔ ∃ r ∈ l, evaluateRule now c r = true := by
  induction l with
  | nil => simp [evalOr]
  | cons r rs ih => simp [evalOr, ih]

/-- `rule.and.every(...)` is `true` iff every branch evaluates to `true`. -/
theorem evalAnd_iff (now : Int) (c : Customer) (l : List JRule) :
    evalAnd now c l = true ↔ ∀ r ∈ l, evaluateRule now c r = true := by
  induction l with
  | nil => simp [evalAnd]
  | cons r rs ih => simp [evalAnd, ih]

/-! ## Claim C3 -/

/-- Claim C3, counterexample.  The claim asserts that whenever a node's
`or` list is populated, evaluation agrees with the disjunction of the
branches.  But `evaluateRule` tests `if (rule.and)` first and a
present-but-empty `and` array is truthy in JS, so the node
`\x7band: [], or: [spend > 10]\x7d` evaluates to `true` for a customer
with `spend = 5` even though its only `or` branch is `false`. -/
theorem c3_empty_and_or_counterexample :
    ¬ (evaluateRule 0 ⟨1, 1, "A", "a@b.c", none, some 5, some 0, none, 0⟩
         (.mk false none none none none (some [])
           (some [.mk true (some "spend") (some ">") none (some 10) none none])) = true ↔
       ∃ r ∈ [JRule.mk true (some "spend") (some ">") none (some 10) none none],
         evaluateRule 0 ⟨1, 1, "A", "a@b.c", none, some 5, some 0, none, 0⟩ r = true) := by
  decide

/-- Claim C3, amended: an empty `and` list makes the node evaluate to
`true` regardless of any `or` list; and when the `or` list is populated
*and the `and` key is absent*, evaluation is `true` iff at least one `or`
branch is `true` for the customer. -/
theorem c3_empty_and_or_amended (now : Int) (c : Customer)
    (o : Option (List JRule)) (l : List JRule) :
    evaluateRule now c (.mk false none none none none (some []) o) = true ∧
    (l ≠ [] →
      (evaluateRule now c (.mk false none none none none none (some l)) = true ↔
        ∃ r ∈ l, evaluateRule now c r = true)) := by
  refine ⟨by simp [evaluateRule, evalAnd], fun _ => ?_⟩
  simpa [evaluateRule] using evalOr_iff now c l

/-- Witness for `c3_empty_and_or_amended` at a concrete customer and rule
list. -/
theorem c3_empty_and_or_amended_witness :
    evaluateRule 0 ⟨1, 1, "A", "a@b.c", none, some 5, some 0, none, 0⟩
      (.mk false none none none none (some [])
        (some [.mk true (some "spend") (some ">") none (some 10) none none])) = true ∧
    (evaluateRule 0 ⟨1, 1, "A", "a@b.c", none, some 5, some 0, none, 0⟩
        (.mk false none none none none none
          (some [.mk true (some "spend") (some ">") none (some 3) none none])) = true ↔
      ∃ r ∈ [JRule.mk true (some "spend") (some ">") none (some 3) none none],
        evaluateRule 0 ⟨1, 1, "A", "a@b.c", none, some 5, some 0, none, 0⟩ r = true) := by
  exact ⟨(c3_empty_and_or_amended 0 ⟨1, 1, "A", "a@b.c", none, some 5, some 0, none, 0⟩
            (some [.mk true (some "spend") (some ">") none (some 10) none none])
            [.mk true (some "spend") (some ">") none (some 3) none none]).1,
         (c3_empty_and_or_amended 0 ⟨1, 1, "A", "a@b.c", none, some 5, some 0, none, 0⟩
            (some [.mk true (some "spend") (some ">") none (some 10) none none])
            [.mk true (some "spend") (some ">") none (some 3) none none]).2
            (List.cons_ne_nil _ _)⟩

/-! ## Claim C10 -/

/-- Claim C10, confirmed.  `fixRuleStructure` turns any or-only input
(no `and` key) into the group `\x7band: [], or: mapped\x7d`, and
`evaluateRule` on a node with a present-but-empty `and` list returns
`true` for every customer — so every segment saved through the API with
only `or` rules matches every customer of its owner. -/
theorem c10_or_only_rules (now : Int) (c : Customer) (hasF : Bool)
    (f op opr : Option String) (v : Option Int) (l branches : List JRule) :
    fixRuleStructure (.mk hasF f op opr v none (some l)) =
      .mk false none none none none (some []) (some (l.map toFixedLeaf)) ∧
    evaluateRule now c (fixRuleStructure (.mk hasF f op opr v none (some l))) = true ∧
    evaluateRule now c (.mk false none none none none (some []) (some branches)) = true := by
  refine ⟨rfl, ?_, ?_⟩ <;> simp [fixRuleStructure, evaluateRule, evalAnd]

/-! ## Claim C9 -/

/-- Claim C9, confirmed.  `validateTemplate` reports `isValid` exactly
when every `\x7b...\x7d` token found in the template (by the scan of
`/\x7b[^}]+\x7d/g`) is a known placeholder; `invalidPlaceholders` is
exactly the list of found tokens outside the known set, so a known
placeholder is never flagged. -/
theorem c9_validate_template (message : String) :
    ((validateTemplate message).isValid = true ↔
      ∀ t ∈ foundPlaceholders message, t ∈ availablePlaceholders) ∧
    (validateTemplate message).invalidPlaceholders =
      (foundPlaceholders message).filter
        (fun p => !(availablePlaceholders.contains p)) ∧
    (∀ t, t ∈ (validateTemplate message).invalidPlaceholders ↔
      (t ∈ foundPlaceholders message ∧ t ∉ availablePlaceholders)) ∧
    ((validateTemplate message).isValid = false ↔
      (validateTemplate message).invalidPlaceholders ≠ []) := by
  refine ⟨?_, rfl, ?_, ?_⟩
  · simp [validateTemplate, List.length_eq_zero, List.filter_eq_nil_iff]
  · intro t
    simp [validateTemplate, List.mem_filter]
  · simp [validateTemplate, List.length_eq_zero]

/-- Witness for `c9_validate_template`: on a template holding one known
and one unknown token, exactly the unknown token is flagged. -/
theorem c9_validate_template_witness :
    (validateTemplate "Hi {name}, use {bogus} today").invalidPlaceholders = ["{bogus}"] ∧
    (validateTemplate "Hi {name}, use {bogus} today").isValid = false ∧
    "{name}" ∉ (validateTemplate "Hi {name}, use {bogus} today").invalidPlaceholders := by
  refine ⟨?_, ?_, ?_⟩
  · exact (c9_validate_template "Hi {name}, use {bogus} today").2.1.trans (by decide)
  · exact ((c9_validate_template "Hi {name}, use {bogus} today").2.2.2).2 (by decide)
  · intro hmem
    exact absurd (((c9_validate_template "Hi {name}, use {bogus} today").2.2.1 "{name}").1 hmem)
      (by decide)

/-! ## Prefix preservation under placeholder substitution

Every substitution pattern starts with a brace, so a brace-free prefix of
the template survives all thirteen `replace` calls unchanged.  This is
what makes the template-level half of the greeting rule true. -/

/-- One step of `replaceAllAux` past a character that cannot start the
pattern. -/
theorem replaceAllAux_cons_of_brace (pat rep : List Char)
    (h : pat.head? = some '{') (c : Char) (hc : c ≠ '{')
    (fuel : Nat) (s : List Char) :
    replaceAllAux pat rep (fuel + 1) (c :: s) =
      c :: replaceAllAux pat rep fuel s := by
  cases pat with
  | nil => simp at h
  | cons a tl =>
    have ha : a = '{' := by simpa using h
    subst ha
    simp [replaceAllAux, List.isPrefixOf, Ne.symm hc]

/-- A brace-free prefix passes through `replaceAllAux` untouched (each
character consumes exactly one unit of fuel). -/
theorem replaceAllAux_append_clean (pat rep : List Char)
    (h : pat.head? = some '{') (p : List Char)
    (hp : ∀ ch ∈ p, ch ≠ '{') (fuel : Nat) (s : List Char) :
    replaceAllAux pat rep (p.length + fuel) (p ++ s) =
      p ++ replaceAllAux pat rep fuel s := by
  induction p with
  | nil => simp
  | cons c p ih =>
    have hc : c ≠ '{' := hp c (List.mem_cons_self c p)
    have hrec := ih (fun ch hch => hp ch (List.mem_cons_of_mem c hch))
    have hlen : (c :: p).length + fuel = (p.length + fuel) + 1 := by
      simp only [List.length_cons]
      omega
    rw [hlen, List.cons_append,
      replaceAllAux_cons_of_brace pat rep h c hc (p.length + fuel) (p ++ s),
      hrec, List.cons_append]

/-- A brace-free prefix passes through `jsReplace` untouched when the
pattern starts with a brace. -/
theorem jsReplace_keeps_front (pat rep : String)
    (h : pat.data.head? = some '{') (p q : List Char)
    (hp : ∀ ch ∈ p, ch ≠ '{') :
    jsReplace ⟨p ++ q⟩ pat rep = ⟨p ++ (jsReplace ⟨q⟩ pat rep).data⟩ := by
  show String.mk (replaceAllAux pat.data rep.data (p ++ q).length (p ++ q)) = _
  rw [List.length_append]
  exact congrArg String.mk (replaceAllAux_append_clean pat.data rep.data h p hp q.length q)

/-- A brace-free prefix passes through a whole chain of brace-headed
substitutions untouched. -/
theorem foldl_jsReplace_keeps_front (prs : List (String × String))
    (p : List Char) (hp : ∀ ch ∈ p, ch ≠ '{') :
    (∀ pr ∈ prs, pr.1.data.head? = some '{') →
    ∀ q : List Char,
      prs.foldl (fun m pr => jsReplace m pr.1 pr.2) ⟨p ++ q⟩ =
        ⟨p ++ (prs.foldl (fun m pr => jsReplace m pr.1 pr.2) ⟨q⟩).data⟩ := by
  induction prs with
  | nil => intro _ q; rfl
  | cons pr prs ih =>
    intro hprs q
    simp only [List.foldl_cons]
    rw [jsReplace_keeps_front pr.1 pr.2 (hprs pr (List.mem_cons_self pr prs)) p q hp]
    exact ih (fun x hx => hprs x (List.mem_cons_of_mem pr hx)) ((jsReplace ⟨q⟩ pr.1 pr.2).data)

/-- Every substitution pattern of `personalizeMessage` starts with a
brace. -/
theorem substitutionPairs_head_brace (d : PersonalizationData) :
    ∀ pr ∈ substitutionPairs d, pr.1.data.head? = some '{' := by
  intro pr hpr
  simp only [substitutionPairs, List.mem_cons, List.not_mem_nil, or_false] at hpr
  rcases hpr with rfl | rfl | rfl | rfl | rfl | rfl | rfl | rfl | rfl | rfl | rfl | rfl | rfl <;>
    rfl

/-- A brace-free prefix of the template survives `applyPlaceholders`. -/
theorem applyPlaceholders_keeps_front (d : PersonalizationData)
    (p q : List Char) (hp : ∀ ch ∈ p, ch ≠ '{') :
    applyPlaceholders ⟨p ++ q⟩ d = ⟨p ++ (applyPlaceholders ⟨q⟩ d).data⟩ :=
  foldl_jsReplace_keeps_front (substitutionPairs d) p hp
    (substitutionPairs_head_brace d) q

/-- If the template starts (case-insensitively) with a brace-free greeting
word `g`, so does the substituted message. -/
theorem greeting_prefix_preserved (g : String) (hg : '{' ∉ g.data)
    (message : String) (d : PersonalizationData)
    (h : g.data.isPrefixOf (jsToLower message).data = true) :
    g.data.isPrefixOf (jsToLower (applyPlaceholders message d)).data = true := by
  obtain ⟨mdata⟩ := message
  have hpre : g.data <+: mdata.map Char.toLower := by
    apply List.isPrefixOf_iff_prefix.mp
    simpa [jsToLower] using h
  have hsplit : mdata = mdata.take g.data.length ++ mdata.drop g.data.length :=
    (List.take_append_drop _ _).symm
  have hmap : (mdata.take g.data.length).map Char.toLower = g.data := by
    obtain ⟨t, ht⟩ := hpre
    rw [List.map_take, ← ht, List.take_left]
  have hnb : ∀ ch ∈ mdata.take g.data.length, ch ≠ '{' := by
    intro ch hch heq
    subst heq
    have hmem : Char.toLower '{' ∈ (mdata.take g.data.length).map Char.toLower :=
      List.mem_map_of_mem _ hch
    rw [hmap] at hmem
    have hlb : Char.toLower '{' = '{' := by decide
    rw [hlb] at hmem
    exact hg hmem
  have happ : applyPlaceholders ⟨mdata⟩ d =
      ⟨mdata.take g.data.length ++
        (applyPlaceholders ⟨mdata.drop g.data.length⟩ d).data⟩ :=
    (congrArg (fun l => applyPlaceholders ⟨l⟩ d) hsplit).trans
      (applyPlaceholders_keeps_front d _ _ hnb)
  rw [happ]
  apply List.isPrefixOf_iff_prefix.mpr
  show g.data <+: (mdata.take g.data.length ++ _).map Char.toLower
  rw [List.map_append, hmap]
  exact List.prefix_append _ _

/-- The greeting test is preserved by substitution: a template that starts
with `hi `/`hello `/`dear ` (case-insensitively) still does after all
placeholders are substituted. -/
theorem startsWithGreeting_applyPlaceholders (message : String)
    (d : PersonalizationData) (h : startsWithGreeting message = true) :
    startsWithGreeting (applyPlaceholders message d) = true := by
  simp only [startsWithGreeting, strStartsWith, Bool.or_eq_true] at h ⊢
  rcases h with (h | h) | h
  · exact Or.inl (Or.inl (greeting_prefix_preserved "hi " (by decide) message d h))
  · exact Or.inl (Or.inr (greeting_prefix_preserved "hello " (by decide) message d h))
  · exact Or.inr (greeting_prefix_preserved "dear " (by decide) message d h)

/-! ## Claim C6 -/

/-- Claim C6, counterexample.  The greeting check is applied to the
*substituted* message, not the template: the template `"{name}!"` does not
start with a greeting, but for a customer named `"Hi there"` the
substituted message is `"Hi there!"`, which does — so no prefix is added,
while the claim requires the output to be the prefixed string. -/
theorem c6_greeting_counterexample :
    startsWithGreeting "{name}!" = false ∧
    applyPlaceholders "{name}!"
      (buildPersonalizationData ⟨1, 1, "Hi there", "a@b.c", none, some 0, some 0, none, 0⟩
        "Valued Customer" CustomData.empty) = "Hi there!" ∧
    (personalizeMessage "{name}!"
      ⟨1, 1, "Hi there", "a@b.c", none, some 0, some 0, none, 0⟩
      "Valued Customer" CustomData.empty).personalizedMessage = "Hi there!" ∧
    ("Hi there!" : String) ≠
      "Hi " ++ (buildPersonalizationData
        ⟨1, 1, "Hi there", "a@b.c", none, some 0, some 0, none, 0⟩
        "Valued Customer" CustomData.empty).customerName ++ ", " ++ "Hi there!" := by
  exact ⟨by decide, by decide, by decide, by decide⟩

/-- Claim C6, amended: the greeting decision is made on the substituted
message.  If the substituted message already starts with a greeting the
output is the substituted message unchanged; otherwise the output is the
substituted message prefixed with the greeting.  In particular a template
that itself starts with a greeting never gains a prefix (substitution
cannot disturb a brace-free prefix), exactly as the claim's second half
states; the first half only holds when substitution does not itself
produce a leading greeting. -/
theorem c6_greeting_amended (message : String) (c : Customer)
    (fb : String) (cd : CustomData) :
    (startsWithGreeting (applyPlaceholders message (buildPersonalizationData c fb cd)) = true →
      (personalizeMessage message c fb cd).personalizedMessage =
        applyPlaceholders message (buildPersonalizationData c fb cd)) ∧
    (startsWithGreeting (applyPlaceholders message (buildPersonalizationData c fb cd)) = false →
      (personalizeMessage message c fb cd).personalizedMessage =
        "Hi " ++ (buildPersonalizationData c fb cd).customerName ++ ", " ++
          applyPlaceholders message (buildPersonalizationData c fb cd)) ∧
    (startsWithGreeting message = true →
      (personalizeMessage message c fb cd).personalizedMessage =
        applyPlaceholders message (buildPersonalizationData c fb cd)) := by
  refine ⟨fun h => ?_, fun h => ?_, fun h => ?_⟩
  · simp [personalizeMessage, h]
  · simp [personalizeMessage, h]
  · have hsub := startsWithGreeting_applyPlaceholders message
      (buildPersonalizationData c fb cd) h
    simp [personalizeMessage, hsub]

/-- Witness for `c6_greeting_amended`: a template that starts with a
greeting keeps the substituted message unprefixed, and a plain template
gains the prefix. -/
theorem c6_greeting_amended_witness :
    (personalizeMessage "Dear {name}, big sale"
      ⟨1, 1, "Ann", "a@b.c", none, some 0, some 0, none, 0⟩
      "Valued Customer" CustomData.empty).personalizedMessage =
      applyPlaceholders "Dear {name}, big sale"
        (buildPersonalizationData ⟨1, 1, "Ann", "a@b.c", none, some 0, some 0, none, 0⟩
          "Valued Customer" CustomData.empty) ∧
    (personalizeMessage "save {discount} now"
      ⟨1, 1, "Ann", "a@b.c", none, some 0, some 0, none, 0⟩
      "Valued Customer" CustomData.empty).personalizedMessage =
      "Hi " ++ (buildPersonalizationData ⟨1, 1, "Ann", "a@b.c", none, some 0, some 0, none, 0⟩
          "Valued Customer" CustomData.empty).customerName ++ ", " ++
        applyPlaceholders "save {discount} now"
          (buildPersonalizationData ⟨1, 1, "Ann", "a@b.c", none, some 0, some 0, none, 0⟩
            "Valued Customer" CustomData.empty) := by
  exact ⟨(c6_greeting_amended "Dear {name}, big sale"
            ⟨1, 1, "Ann", "a@b.c", none, some 0, some 0, none, 0⟩
            "Valued Customer" CustomData.empty).2.2 (by decide),
         (c6_greeting_amended "save {discount} now"
            ⟨1, 1, "Ann", "a@b.c", none, some 0, some 0, none, 0⟩
            "Valued Customer" CustomData.empty).2.1 (by decide)⟩

/-! ## Claim C5 -/

/-- The four per-status counts partition the per-campaign total. -/
theorem countP_status_partition (campaignId userId : Nat) (logs : List CommLog) :
    logs.countP (logMatchesStatus campaignId userId .SENT) +
    logs.countP (logMatchesStatus campaignId userId .FAILED) +
    logs.countP (logMatchesStatus campaignId userId .PENDING) +
    logs.countP (logMatchesStatus campaignId userId .QUEUED) =
    logs.countP (logMatches campaignId userId) := by
  induction logs with
  | nil => simp
  | cons l ls ih =>
    by_cases hp : logMatches campaignId userId l = true
    · cases hst : l.status <;>
        simp [List.countP_cons, logMatchesStatus, hp, hst] <;> omega
    · have hp' : logMatches campaignId userId l = false := by simpa using hp
      simp [List.countP_cons, logMatchesStatus, hp', ih]

/-- Rounding to two decimals can only increase a value by at most half a
cent. -/
theorem round2_le (x : ℚ) : round2 x ≤ x + 1 / 200 := by
  unfold round2 jsMathRound
  have h1 : ((⌊x * 100 + 1 / 2⌋ : ℤ) : ℚ) ≤ x * 100 + 1 / 2 := Int.floor_le _
  calc ((⌊x * 100 + 1 / 2⌋ : ℤ) : ℚ) / 100 ≤ (x * 100 + 1 / 2) / 100 := by gcongr
    _ = x + 1 / 200 := by ring

/-- Claim C5, counterexample.  For the 32-log campaign (1 SENT, 31
FAILED), the exact rates are 3.125 and 96.875; `Math.round` pushes both
halves up, so the reported rates are 3.13 and 96.88 and their sum is
100.01 > 100 — refuting both the bound `successRate + failureRate <= 100`
and the claimed equality when nothing is pending or queued. -/
theorem c5_stats_counterexample :
    ¬ ((getCampaignStats 1 1 c5CounterLogs).successRate +
         (getCampaignStats 1 1 c5CounterLogs).failureRate ≤ 100 ∧
       ((getCampaignStats 1 1 c5CounterLogs).successRate +
          (getCampaignStats 1 1 c5CounterLogs).failureRate = 100 ↔
        ((getCampaignStats 1 1 c5CounterLogs).pending = 0 ∧
         (getCampaignStats 1 1 c5CounterLogs).queued = 0))) := by
  have ht : c5CounterLogs.countP (logMatches 1 1) = 32 := by decide
  have hs : c5CounterLogs.countP (logMatchesStatus 1 1 .SENT) = 1 := by decide
  have hf : c5CounterLogs.countP (logMatchesStatus 1 1 .FAILED) = 31 := by decide
  have hsr : (getCampaignStats 1 1 c5CounterLogs).successRate = 313 / 100 := by
    simp only [getCampaignStats, ht, hs]
    norm_num [round2, jsMathRound]
  have hfr : (getCampaignStats 1 1 c5CounterLogs).failureRate = 9688 / 100 := by
    simp only [getCampaignStats, ht, hf]
    norm_num [round2, jsMathRound]
  intro h
  rw [hsr, hfr] at h
  have hle := h.1
  norm_num at hle

/-- Claim C5, amended: the counts partition (`sent + failed + pending +
queued = total`); the rates are the two-decimal roundings of
`sent/total*100` and `failed/total*100` (zero when `total = 0`); *before
rounding* the two rates sum to at most 100, with equality exactly when the
campaign has at least one log and none is pending or queued; after
rounding the reported sum can exceed 100, but by at most 0.01. -/
theorem c5_stats_amended (campaignId userId : Nat) (logs : List CommLog) :
    let s := getCampaignStats campaignId userId logs
    let rawSuccess : ℚ := if s.total > 0 then ((s.sent : ℚ) / (s.total : ℚ)) * 100 else 0
    let rawFailure : ℚ := if s.total > 0 then ((s.failed : ℚ) / (s.total : ℚ)) * 100 else 0
    s.sent + s.failed + s.pending + s.queued = s.total ∧
    s.successRate = round2 rawSuccess ∧
    s.failureRate = round2 rawFailure ∧
    (s.total = 0 → s.successRate = 0 ∧ s.failureRate = 0) ∧
    rawSuccess + rawFailure ≤ 100 ∧
    (rawSuccess + rawFailure = 100 ↔ (0 < s.total ∧ s.pending = 0 ∧ s.queued = 0)) ∧
    s.successRate + s.failureRate ≤ 100 + 1 / 100 := by
  intro s rawSuccess rawFailure
  have hpart : s.sent + s.failed + s.pending + s.queued = s.total :=
    countP_status_partition campaignId userId logs
  have hsucc : s.successRate = round2 rawSuccess := rfl
  have hfail : s.failureRate = round2 rawFailure := rfl
  have hSdef : rawSuccess = (if s.total > 0 then ((s.sent : ℚ) / (s.total : ℚ)) * 100 else 0) :=
    rfl
  have hFdef : rawFailure = (if s.total > 0 then ((s.failed : ℚ) / (s.total : ℚ)) * 100 else 0) :=
    rfl
  have hzero : s.total = 0 → s.successRate = 0 ∧ s.failureRate = 0 := by
    intro h0
    rw [hsucc, hfail, hSdef, hFdef, h0]
    norm_num [round2, jsMathRound]
  have hsumle : rawSuccess + rawFailure ≤ 100 := by
    by_cases ht : s.total > 0
    · have htQ : (0 : ℚ) < (s.total : ℚ) := by exact_mod_cast ht
      have hle : (s.sent : ℚ) + (s.failed : ℚ) ≤ (s.total : ℚ) := by
        have hN : s.sent + s.failed ≤ s.total := by omega
        exact_mod_cast hN
      rw [hSdef, hFdef, if_pos ht, if_pos ht, div_mul_eq_mul_div, div_mul_eq_mul_div,
        div_add_div_same, div_le_iff₀ htQ]
      nlinarith
    · rw [hSdef, hFdef, if_neg ht, if_neg ht]
      norm_num
  have hsumeq : rawSuccess + rawFailure = 100 ↔
      (0 < s.total ∧ s.pending = 0 ∧ s.queued = 0) := by
    by_cases ht : s.total > 0
    · have htQ : (0 : ℚ) < (s.total : ℚ) := by exact_mod_cast ht
      rw [hSdef, hFdef, if_pos ht, if_pos ht, div_mul_eq_mul_div, div_mul_eq_mul_div,
        div_add_div_same, div_eq_iff (ne_of_gt htQ)]
      constructor
      · intro h
        have hQ : (s.sent : ℚ) + (s.failed : ℚ) = (s.total : ℚ) := by nlinarith
        have hN : s.sent + s.failed = s.total := by exact_mod_cast hQ
        exact ⟨ht, by omega, by omega⟩
      · rintro ⟨-, hpe, hq⟩
        have hN : s.sent + s.failed = s.total := by omega
        have hQ : (s.sent : ℚ) + (s.failed : ℚ) = (s.total : ℚ) := by exact_mod_cast hN
        nlinarith
    · rw [hSdef, hFdef, if_neg ht, if_neg ht]
      constructor
      · intro h; norm_num at h
      · rintro ⟨h, -⟩; omega
  refine ⟨hpart, hsucc, hfail, hzero, hsumle, hsumeq, ?_⟩
  calc s.successRate + s.failureRate
      ≤ (rawSuccess + 1 / 200) + (rawFailure + 1 / 200) := by
        rw [hsucc, hfail]
        exact add_le_add (round2_le rawSuccess) (round2_le rawFailure)
    _ = (rawSuccess + rawFailure) + 1 / 100 := by ring
    _ ≤ 100 + 1 / 100 := by linarith

/-- Witness for `c5_stats_amended` at a concrete one-log store. -/
theorem c5_stats_amended_witness :
    (getCampaignStats 1 1 [⟨0, 1, some 1, some 1, .SENT, "m", some "x", none, none, 0⟩]).sent +
      (getCampaignStats 1 1 [⟨0, 1, some 1, some 1, .SENT, "m", some "x", none, none, 0⟩]).failed +
      (getCampaignStats 1 1 [⟨0, 1, some 1, some 1, .SENT, "m", some "x", none, none, 0⟩]).pending +
      (getCampaignStats 1 1 [⟨0, 1, some 1, some 1, .SENT, "m", some "x", none, none, 0⟩]).queued =
      (getCampaignStats 1 1 [⟨0, 1, some 1, some 1, .SENT, "m", some "x", none, none, 0⟩]).total ∧
    (getCampaignStats 1 1 [⟨0, 1, some 1, some 1, .SENT, "m", some "x", none, none, 0⟩]).successRate +
      (getCampaignStats 1 1 [⟨0, 1, some 1, some 1, .SENT, "m", some "x", none, none, 0⟩]).failureRate ≤
      100 + 1 / 100 :=
  ⟨(c5_stats_amended 1 1 [⟨0, 1, some 1, some 1, .SENT, "m", some "x", none, none, 0⟩]).1,
   (c5_stats_amended 1 1 [⟨0, 1, some 1, some 1, .SENT, "m", some "x", none, none, 0⟩]).2.2.2.2.2.2⟩

/-! ## Claim C8 -/

/-- Claim C8: the code is wrong.  `getQueueStats` groups every
sent-message record by status with no owner filter whatsoever.  Owner 1
has no records at all, yet after owner 2 enqueues one message the stats
reported to every caller change to `QUEUED = 1` — the counts one owner
observes depend on another owner's records, violating the owner-scoping
rule the spec states for every query (the last conjunct shows owner 1's
own queued count is 0). -/
theorem c8_queue_stats_bug :
    getQueueStats [] = ⟨0, 0, 0, 0⟩ ∧
    getQueueStats
      [⟨1, 2, "other@b.c", none, "s", "t", none, .QUEUED, 0, some "m2", none, none, 0, 0⟩] =
      ⟨1, 0, 0, 0⟩ ∧
    getQueueStats
      [⟨1, 2, "other@b.c", none, "s", "t", none, .QUEUED, 0, some "m2", none, none, 0, 0⟩] ≠
      getQueueStats [] ∧
    List.countP (fun m => decide (m.userId = 1) && decide (m.status = DeliveryStatus.QUEUED))
      ([⟨1, 2, "other@b.c", none, "s", "t", none, .QUEUED, 0, some "m2", none, none, 0, 0⟩] :
        List SentMsg) = 0 := by
  exact ⟨by decide, by decide, by decide, by decide⟩

/-! ## Claim C2 -/

/-- Claim C2: the code is wrong.  `handleDeliveryReceipt` never checks the
current status of the matched records.  Starting from a store whose only
communication-log/sent-message pair for `m1` is already terminal (SENT), a
second receipt reporting FAILED is accepted (`ok`) and flips both records
to FAILED with the new error — a terminal record is modified again and the
repeat receipt is anything but a no-op. -/
theorem c2_terminal_receipt_bug :
    (handleDeliveryReceipt 99 ⟨some "m1", some "FAILED", some 77, some "bounced", none, none⟩
      { segments := [], customers := [], users := [], campaigns := [],
        sentMessages := [⟨5, 1, "a@b.c", none, "s", "t", none, .SENT, 50, some "m1", none,
          none, 10, 50⟩],
        commLogs := [⟨7, 1, none, none, .SENT, "t", some "m1", some 50, none, 50⟩],
        nextId := 8 }).1 = .ok ∧
    ((handleDeliveryReceipt 99 ⟨some "m1", some "FAILED", some 77, some "bounced", none, none⟩
      { segments := [], customers := [], users := [], campaigns := [],
        sentMessages := [⟨5, 1, "a@b.c", none, "s", "t", none, .SENT, 50, some "m1", none,
          none, 10, 50⟩],
        commLogs := [⟨7, 1, none, none, .SENT, "t", some "m1", some 50, none, 50⟩],
        nextId := 8 }).2.commLogs.map (fun l => l.status)) = [.FAILED] ∧
    ((handleDeliveryReceipt 99 ⟨some "m1", some "FAILED", some 77, some "bounced", none, none⟩
      { segments := [], customers := [], users := [], campaigns := [],
        sentMessages := [⟨5, 1, "a@b.c", none, "s", "t", none, .SENT, 50, some "m1", none,
          none, 10, 50⟩],
        commLogs := [⟨7, 1, none, none, .SENT, "t", some "m1", some 50, none, 50⟩],
        nextId := 8 }).2.sentMessages.map (fun m => m.status)) = [.FAILED] ∧
    ((handleDeliveryReceipt 99 ⟨some "m1", some "FAILED", some 77, some "bounced", none, none⟩
      { segments := [], customers := [], users := [], campaigns := [],
        sentMessages := [⟨5, 1, "a@b.c", none, "s", "t", none, .SENT, 50, some "m1", none,
          none, 10, 50⟩],
        commLogs := [⟨7, 1, none, none, .SENT, "t", some "m1", some 50, none, 50⟩],
        nextId := 8 }).2.commLogs.map (fun l => l.error_message)) = [some "bounced"] := by
  exact ⟨by decide, by decide, by decide, by decide⟩

/-! ## Helper lemmas about `updateFirst` and `oldestQueued` -/

/-- `updateFirst` is the identity when no element matches. -/
theorem updateFirst_eq_of_none {α : Type} (p : α → Bool) (f : α → α)
    (l : List α) (h : ∀ x ∈ l, p x = false) : updateFirst p f l = l := by
  induction l with
  | nil => rfl
  | cons a l ih =>
    have ha : p a = false := h a (List.mem_cons_self a l)
    simp [updateFirst, ha, ih (fun x hx => h x (List.mem_cons_of_mem a hx))]

/-- When some element matches, `updateFirst` rewrites exactly the first
match and leaves everything else in place. -/
theorem updateFirst_decomp {α : Type} (p : α → Bool) (f : α → α)
    (l : List α) (x : α) (hx : x ∈ l) (hpx : p x = true) :
    ∃ l1 y l2, l = l1 ++ y :: l2 ∧ (∀ z ∈ l1, p z = false) ∧ p y = true ∧
      updateFirst p f l = l1 ++ f y :: l2 := by
  induction l with
  | nil => cases hx
  | cons a l ih =>
    by_cases hpa : p a = true
    · exact ⟨[], a, l, rfl, by simp, hpa, by simp [updateFirst, hpa]⟩
    · have hpa' : p a = false := by simpa using hpa
      have hxl : x ∈ l := by
        rcases List.mem_cons.mp hx with rfl | hxl
        · rw [hpx] at hpa'; cases hpa'
        · exact hxl
      obtain ⟨l1, y, l2, hdec, hnone, hpy, hupd⟩ := ih hxl
      refine ⟨a :: l1, y, l2, by simp [hdec], ?_, hpy, ?_⟩
      · intro z hz
        rcases List.mem_cons.mp hz with rfl | hzl
        · exact hpa'
        · exact hnone z hzl
      · simp [updateFirst, hpa', hupd]

/-- The record `oldestQueued` picks is a QUEUED member of the store. -/
theorem oldestQueued_mem (msgs : List SentMsg) (m : SentMsg)
    (h : oldestQueued msgs = some m) : m ∈ msgs ∧ m.status = .QUEUED := by
  induction msgs generalizing m with
  | nil => cases h
  | cons a ms ih =>
    cases hrec : oldestQueued ms with
    | none =>
      simp only [oldestQueued, hrec] at h
      by_cases hs : a.status = .QUEUED
      · rw [if_pos hs] at h
        cases h
        exact ⟨List.mem_cons_self a ms, hs⟩
      · rw [if_neg hs] at h
        cases h
    | some b =>
      simp only [oldestQueued, hrec] at h
      obtain ⟨hbmem, hbq⟩ := ih b hrec
      by_cases hs : a.status = .QUEUED
      · rw [if_pos hs] at h
        by_cases hle : a.createdAt ≤ b.createdAt
        · rw [if_pos hle] at h
          cases h
          exact ⟨List.mem_cons_self a ms, hs⟩
        · rw [if_neg hle] at h
          cases h
          exact ⟨List.mem_cons_of_mem a hbmem, hbq⟩
      · rw [if_neg hs] at h
        cases h
        exact ⟨List.mem_cons_of_mem a hbmem, hbq⟩

/-- `oldestQueued` returns `none` exactly when no record is QUEUED. -/
theorem oldestQueued_eq_none_iff (msgs : List SentMsg) :
    oldestQueued msgs = none ↔ ∀ m ∈ msgs, m.status ≠ .QUEUED := by
  induction msgs with
  | nil => simp [oldestQueued]
  | cons m ms ih =>
    cases h : oldestQueued ms with
    | none =>
      simp only [oldestQueued, h]
      by_cases hs : m.status = .QUEUED
      · rw [if_pos hs]
        constructor
        · intro hcontr; cases hcontr
        · intro hall; exact absurd hs (hall m (List.mem_cons_self m ms))
      · rw [if_neg hs]
        constructor
        · intro _ x hx
          rcases List.mem_cons.mp hx with rfl | hxms
          · exact hs
          · exact ih.mp h x hxms
        · intro _; rfl
    | some b =>
      simp only [oldestQueued, h]
      obtain ⟨hbmem, hbq⟩ := oldestQueued_mem ms b h
      constructor
      · intro hcontr
        split_ifs at hcontr
      · intro hall
        exact absurd hbq (hall b (List.mem_cons_of_mem m hbmem))

/-- The record `oldestQueued` picks has the least `createdAt` among the
QUEUED records. -/
theorem oldestQueued_min (msgs : List SentMsg) (m : SentMsg)
    (h : oldestQueued msgs = some m) :
    ∀ q ∈ msgs, q.status = .QUEUED → m.createdAt ≤ q.createdAt := by
  induction msgs generalizing m with
  | nil => cases h
  | cons a ms ih =>
    intro q hq hqstat
    cases hrec : oldestQueued ms with
    | none =>
      simp only [oldestQueued, hrec] at h
      by_cases hs : a.status = .QUEUED
      · rw [if_pos hs] at h
        cases h
        rcases List.mem_cons.mp hq with rfl | hqms
        · exact le_rfl
        · exact absurd hqstat ((oldestQueued_eq_none_iff ms).mp hrec q hqms)
      · rw [if_neg hs] at h
        cases h
    | some b =>
      simp only [oldestQueued, hrec] at h
      by_cases hs : a.status = .QUEUED
      · rw [if_pos hs] at h
        by_cases hle : a.createdAt ≤ b.createdAt
        · rw [if_pos hle] at h
          cases h
          rcases List.mem_cons.mp hq with rfl | hqms
          · exact le_rfl
          · exact hle.trans (ih b hrec q hqms hqstat)
        · rw [if_neg hle] at h
          cases h
          rcases List.mem_cons.mp hq with rfl | hqms
          · exact le_of_not_le hle
          · exact ih m hrec q hqms hqstat
      · rw [if_neg hs] at h
        cases h
        rcases List.mem_cons.mp hq with rfl | hqms
        · exact absurd hqstat hs
        · exact ih m hrec q hqms hqstat

/-! ## Claim C7 -/

/-- Claim C7, confirmed.  One wake-up of the queue drain loop: if no
QUEUED sent-message record exists the state is unchanged; otherwise
exactly one sent-message record — a QUEUED one with the least creation
timestamp — is rewritten to SENT or FAILED (per the drawn outcome) with
the new timestamp, and, on failure, the drawn error reason; the first
communication-log record carrying the same message id receives the same
terminal status (timestamp on success, error on failure), and every other
record of both stores is left exactly in place.  `hids` is the Mongo
invariant that `_id`s are unique. -/
theorem c7_queue_tick (isSuccess : Bool) (reason : String) (now : Int)
    (st : AppState) (hids : (st.sentMessages.map (fun m => m.id)).Nodup) :
    ((∀ q ∈ st.sentMessages, q.status ≠ .QUEUED) →
      processQueue isSuccess reason now st = st) ∧
    (∀ m, oldestQueued st.sentMessages = some m →
      m ∈ st.sentMessages ∧ m.status = .QUEUED ∧
      (∀ q ∈ st.sentMessages, q.status = .QUEUED → m.createdAt ≤ q.createdAt) ∧
      (∃ pre post,
        st.sentMessages = pre ++ m :: post ∧
        (processQueue isSuccess reason now st).sentMessages =
          pre ++
            { m with
              status := if isSuccess then .SENT else .FAILED,
              sentAt := now,
              errorMessage := if isSuccess then m.errorMessage else some reason,
              updatedAt := now } :: post) ∧
      ((∀ l ∈ st.commLogs, l.vendor_message_id ≠ m.messageId) →
        (processQueue isSuccess reason now st).commLogs = st.commLogs) ∧
      (∀ cl ∈ st.commLogs, cl.vendor_message_id = m.messageId →
        ∃ l1 x l2,
          st.commLogs = l1 ++ x :: l2 ∧
          (∀ y ∈ l1, y.vendor_message_id ≠ m.messageId) ∧
          x.vendor_message_id = m.messageId ∧
          (processQueue isSuccess reason now st).commLogs =
            l1 ++
              { x with
                status := if isSuccess then .SENT else .FAILED,
                sent_at := if isSuccess then some now else x.sent_at,
                error_message := if isSuccess then x.error_message else some reason,
                updated_at := now } :: l2) ∧
      (processQueue isSuccess reason now st).campaigns = st.campaigns) := by
  constructor
  · intro hnone
    have h0 : oldestQueued st.sentMessages = none :=
      (oldestQueued_eq_none_iff st.sentMessages).mpr hnone
    simp [processQueue, h0]
  · intro m hm
    obtain ⟨hmem, hq⟩ := oldestQueued_mem st.sentMessages m hm
    refine ⟨hmem, hq, oldestQueued_min st.sentMessages m hm, ?_, ?_, ?_, ?_⟩
    · obtain ⟨l1, y, l2, hdec, hnone, hpy, hupd⟩ :=
        updateFirst_decomp (fun r => decide (r.id = m.id))
          (fun r => { r with
            status := if isSuccess then .SENT else .FAILED,
            sentAt := now,
            errorMessage := if isSuccess then r.errorMessage else some reason,
            updatedAt := now })
          st.sentMessages m hmem (by simp)
      have hym : y = m := by
        have hy : (decide (y.id = m.id)) = true := hpy
        have hyid : y.id = m.id := of_decide_eq_true hy
        have hymem : y ∈ st.sentMessages := by
          rw [hdec]; exact List.mem_append_right _ (List.mem_cons_self y l2)
        exact List.inj_on_of_nodup_map hids hymem hmem hyid
      subst hym
      refine ⟨l1, l2, hdec, ?_⟩
      simp only [processQueue, hm]
      exact hupd
    · intro hno
      simp only [processQueue, hm]
      exact updateFirst_eq_of_none _ _ st.commLogs
        (fun l hl => by simpa using hno l hl)
    · intro cl hcl hclid
      obtain ⟨l1, x, l2, hdec, hnone, hpx, hupd⟩ :=
        updateFirst_decomp (fun l => decide (l.vendor_message_id = m.messageId))
          (fun l => { l with
            status := if isSuccess then .SENT else .FAILED,
            sent_at := if isSuccess then some now else l.sent_at,
            error_message := if isSuccess then l.error_message else some reason,
            updated_at := now })
          st.commLogs cl hcl (by simp [hclid])
      refine ⟨l1, x, l2, hdec, ?_, of_decide_eq_true hpx, ?_⟩
      · intro y hy
        simpa using hnone y hy
      · simp only [processQueue, hm]
        exact hupd
    · simp [processQueue, hm]

/-- Witness for `c7_queue_tick` at a two-message store: the drain picks
the older QUEUED record. -/
theorem c7_queue_tick_witness :
    (⟨2, 1, "b@c.d", none, "s2", "t2", none, .QUEUED, 0, some "m2", none, none, 3, 0⟩ : SentMsg) ∈
      ({ segments := [], customers := [], users := [], campaigns := [],
         sentMessages :=
           [⟨1, 1, "a@b.c", none, "s1", "t1", none, .QUEUED, 0, some "m1", none, none, 5, 0⟩,
            ⟨2, 1, "b@c.d", none, "s2", "t2", none, .QUEUED, 0, some "m2", none, none, 3, 0⟩],
         commLogs := [], nextId := 3 } : AppState).sentMessages ∧
    (⟨2, 1, "b@c.d", none, "s2", "t2", none, .QUEUED, 0, some "m2", none, none, 3, 0⟩ :
      SentMsg).status = .QUEUED := by
  have h := (c7_queue_tick true "r" 9
    { segments := [], customers := [], users := [], campaigns := [],
      sentMessages :=
        [⟨1, 1, "a@b.c", none, "s1", "t1", none, .QUEUED, 0, some "m1", none, none, 5, 0⟩,
         ⟨2, 1, "b@c.d", none, "s2", "t2", none, .QUEUED, 0, some "m2", none, none, 3, 0⟩],
      commLogs := [], nextId := 3 } (by decide)).2
    ⟨2, 1, "b@c.d", none, "s2", "t2", none, .QUEUED, 0, some "m2", none, none, 3, 0⟩
    (by decide)
  exact ⟨h.1, h.2.1⟩

/-- Claim C1, counterexample.  On a segment matching zero customers,
`createAndDeliverCampaign` succeeds and reports all-zero counters — but it
returns *before* `CampaignModel.create`: the result's `campaignId` is the
empty string, the state is unchanged, and no Campaign record exists at
all, let alone one marked COMPLETED. -/
theorem c1_zero_customers_counterexample :
    createAndDeliverCampaign 0 (fun _ => 0) (fun _ => none) 7 3 "sale {name}"
      none none c1State = .ok (⟨"", 0, 0, 0, 0, []⟩, c1State) ∧
    ¬ ∃ camp, camp ∈ c1State.campaigns ∧ camp.status = .COMPLETED := by
  refine ⟨rfl, ?_⟩
  rintro ⟨camp, hmem, -⟩
  simp [c1State] at hmem

/-- Claim C1, amended: with zero matching customers the main path
(`createAndDeliverCampaign`) does not fail and reports `totalCustomers =
0`, `messagesQueued = 0` and an empty delivery log with **no** per-customer
records written — but it creates no Campaign record (the returned
`campaignId` is the empty string) and marks nothing COMPLETED, leaving the
state untouched; the vendor-API path (`createCampaignWithVendorAPI`)
instead *rejects* the request with a 400 "No customers found matching
segment rules" error, also without persisting anything. -/
theorem c1_zero_customers_amended (now : Int) (times : Nat → Int)
    (oracle : Nat → Option String) (userId segmentId : Nat) (message : String)
    (subject : Option String) (pd customData : Option CustomData)
    (dp : Option Int) (st : AppState) (seg : Segment) (r : JRule)
    (hfind : st.segments.find? (fun s => decide (s.id = segmentId)) = some seg)
    (howner : seg.userId = userId)
    (hrules : seg.rules_json = some r)
    (hempty : (st.customers.filter (fun c => decide (c.userId = seg.userId))).filter
        (fun c => evaluateRule now c r) = [])
    (hfind2 : st.segments.find?
        (fun s => decide (s.id = segmentId) && decide (s.userId = userId)) = some seg)
    (hvalid : (validateTemplate message).isValid = true)
    (hmsg : message ≠ "") :
    createAndDeliverCampaign now times oracle userId segmentId message subject pd st =
      .ok (⟨"", 0, 0, 0, 0, []⟩, st) ∧
    createCampaignWithVendorAPI now times userId (some segmentId) (some message)
      subject customData dp st =
      (.badRequest "No customers found matching segment rules", st) := by
  constructor
  · simp only [createAndDeliverCampaign, hfind]
    rw [if_neg (by simp [howner])]
    simp [getCustomersForSegment, hrules, hempty]
  · simp only [createCampaignWithVendorAPI, Option.isNone_none, truthyOptStr,
      Option.getD_some]
    rw [if_neg (by simp [hmsg])]
    rw [if_neg (by simp [hvalid])]
    simp only [hfind2, hrules]
    have hempty2 : (st.customers.filter (fun c => decide (c.userId = userId))).filter
        (fun c => evaluateRule now c r) = [] := by
      rw [← howner]; exact hempty
    simp [hempty2]

/-- Witness for `c1_zero_customers_amended` on a concrete zero-match
store. -/
theorem c1_zero_customers_amended_witness :
    createAndDeliverCampaign 0 (fun _ => 0) (fun _ => none) 7 3
      "sale {name} today" none none c1State = .ok (⟨"", 0, 0, 0, 0, []⟩, c1State) ∧
    createCampaignWithVendorAPI 0 (fun _ => 0) 7 (some 3) (some "sale {name} today")
      none none none c1State =
      (.badRequest "No customers found matching segment rules", c1State) := by
  exact c1_zero_customers_amended 0 (fun _ => 0) (fun _ => none) 7 3
    "sale {name} today" none none none none c1State
    ⟨3, 7, "big spenders", some (.mk true (some "spend") (some ">") none (some 1000) none none)⟩
    (.mk true (some "spend") (some ">") none (some 1000) none none)
    rfl rfl rfl rfl rfl (by decide) (by decide)

/-- `deliverCampaignLoop` only appends: one communication-log and one
sent-message record per processed customer, and it never touches the
campaigns store. -/
theorem deliverCampaignLoop_append (times : Nat → Int)
    (oracle : Nat → Option String) (campId uid : Nat)
    (subject storeName : String) :
    ∀ (prs : List (Customer × PersonalizedMessage)) (i : Nat) (st : AppState),
      (∃ t, (deliverCampaignLoop times oracle campId uid subject storeName i prs st).commLogs =
          st.commLogs ++ t ∧ t.length = prs.length) ∧
      (∃ t, (deliverCampaignLoop times oracle campId uid subject storeName i prs st).sentMessages =
          st.sentMessages ++ t ∧ t.length = prs.length) ∧
      (deliverCampaignLoop times oracle campId uid subject storeName i prs st).campaigns =
        st.campaigns := by
  intro prs
  induction prs with
  | nil =>
    intro i st
    exact ⟨⟨[], by simp [deliverCampaignLoop], rfl⟩,
           ⟨[], by simp [deliverCampaignLoop], rfl⟩, rfl⟩
  | cons p rest ih =>
    intro i st
    obtain ⟨c, pm⟩ := p
    obtain ⟨⟨t1, ht1, hl1⟩, ⟨t2, ht2, hl2⟩, hc⟩ := ih (i + 1)
      { st with
        sentMessages := st.sentMessages ++
          [deliverStepSentMsg times oracle campId uid subject storeName i c pm st.nextId],
        commLogs := st.commLogs ++
          [deliverStepCommLog times oracle campId uid i c pm (st.nextId + 1)],
        nextId := st.nextId + 2 }
    have hloop : deliverCampaignLoop times oracle campId uid subject storeName i
        ((c, pm) :: rest) st =
      deliverCampaignLoop times oracle campId uid subject storeName (i + 1) rest
        { st with
          sentMessages := st.sentMessages ++
            [deliverStepSentMsg times oracle campId uid subject storeName i c pm st.nextId],
          commLogs := st.commLogs ++
            [deliverStepCommLog times oracle campId uid i c pm (st.nextId + 1)],
          nextId := st.nextId + 2 } := rfl
    refine ⟨⟨deliverStepCommLog times oracle campId uid i c pm (st.nextId + 1) :: t1, ?_, ?_⟩,
            ⟨deliverStepSentMsg times oracle campId uid subject storeName i c pm st.nextId :: t2,
              ?_, ?_⟩, ?_⟩
    · rw [hloop, ht1]
      simp
    · simpa using hl1
    · rw [hloop, ht2]
      simp
    · simpa using hl2
    · rw [hloop, hc]

/-- The `j`-th records appended by `deliverCampaignLoop` are exactly the
step records for customer `j` at iteration `i + j` (for some fresh id). -/
theorem deliverCampaignLoop_getD (times : Nat → Int)
    (oracle : Nat → Option String) (campId uid : Nat)
    (subject storeName : String) :
    ∀ (prs : List (Customer × PersonalizedMessage)) (i : Nat) (st : AppState)
      (j : Nat), j < prs.length →
      ∃ nid,
        (deliverCampaignLoop times oracle campId uid subject storeName i prs st).commLogs.getD
            (st.commLogs.length + j) dfltCommLog =
          deliverStepCommLog times oracle campId uid (i + j)
            (prs.getD j dfltPair).1 (prs.getD j dfltPair).2 (nid + 1) ∧
        (deliverCampaignLoop times oracle campId uid subject storeName i prs st).sentMessages.getD
            (st.sentMessages.length + j) dfltSentMsg =
          deliverStepSentMsg times oracle campId uid subject storeName (i + j)
            (prs.getD j dfltPair).1 (prs.getD j dfltPair).2 nid := by
  intro prs
  induction prs with
  | nil => intro i st j hj; cases hj
  | cons p rest ih =>
    intro i st j hj
    obtain ⟨c, pm⟩ := p
    have hloop : deliverCampaignLoop times oracle campId uid subject storeName i
        ((c, pm) :: rest) st =
      deliverCampaignLoop times oracle campId uid subject storeName (i + 1) rest
        { st with
          sentMessages := st.sentMessages ++
            [deliverStepSentMsg times oracle campId uid subject storeName i c pm st.nextId],
          commLogs := st.commLogs ++
            [deliverStepCommLog times oracle campId uid i c pm (st.nextId + 1)],
          nextId := st.nextId + 2 } := rfl
    cases j with
    | zero =>
      refine ⟨st.nextId, ?_, ?_⟩
      · obtain ⟨⟨t1, ht1, -⟩, -, -⟩ := deliverCampaignLoop_append times oracle campId uid
          subject storeName rest (i + 1)
          { st with
            sentMessages := st.sentMessages ++
              [deliverStepSentMsg times oracle campId uid subject storeName i c pm st.nextId],
            commLogs := st.commLogs ++
              [deliverStepCommLog times oracle campId uid i c pm (st.nextId + 1)],
            nextId := st.nextId + 2 }
        rw [hloop, ht1]
        simp only [List.append_assoc, Nat.add_zero]
        rw [List.getD_append_right st.commLogs _ _ _ le_rfl]
        simp
      · obtain ⟨-, ⟨t2, ht2, -⟩, -⟩ := deliverCampaignLoop_append times oracle campId uid
          subject storeName rest (i + 1)
          { st with
            sentMessages := st.sentMessages ++
              [deliverStepSentMsg times oracle campId uid subject storeName i c pm st.nextId],
            commLogs := st.commLogs ++
              [deliverStepCommLog times oracle campId uid i c pm (st.nextId + 1)],
            nextId := st.nextId + 2 }
        rw [hloop, ht2]
        simp only [List.append_assoc, Nat.add_zero]
        rw [List.getD_append_right st.sentMessages _ _ _ le_rfl]
        simp
    | succ j =>
      have hj' : j < rest.length := by simpa using Nat.lt_of_succ_lt_succ hj
      obtain ⟨nid, h1, h2⟩ := ih (i + 1)
        { st with
          sentMessages := st.sentMessages ++
            [deliverStepSentMsg times oracle campId uid subject storeName i c pm st.nextId],
          commLogs := st.commLogs ++
            [deliverStepCommLog times oracle campId uid i c pm (st.nextId + 1)],
          nextId := st.nextId + 2 } j hj'
      refine ⟨nid, ?_, ?_⟩
      · rw [hloop]
        have hidx : st.commLogs.length + (j + 1) =
            (st.commLogs ++
              [deliverStepCommLog times oracle campId uid i c pm (st.nextId + 1)]).length + j := by
          simp; omega
        have hadd : i + 1 + j = i + (j + 1) := by omega
        rw [hidx]
        rw [hadd] at h1
        simpa using h1
      · rw [hloop]
        have hidx : st.sentMessages.length + (j + 1) =
            (st.sentMessages ++
              [deliverStepSentMsg times oracle campId uid subject storeName i c pm st.nextId]).length + j := by
          simp; omega
        have hadd : i + 1 + j = i + (j + 1) := by omega
        rw [hidx]
        rw [hadd] at h2
        simpa using h2

/-- `campaignDeliveryLoop` produces exactly one in-memory log entry per
customer — the `j`-th entry is the entry for customer `j` at iteration
`i + j` — and every record it persists is QUEUED (a failing customer gets
no persisted record at all). -/
theorem campaignDeliveryLoop_spec (times : Nat → Int)
    (oracle : Nat → Option String) (uid campId : Nat) (message : String)
    (subject : Option String) (pd : Option CustomData) :
    ∀ (cs : List Customer) (i : Nat) (st : AppState),
      (campaignDeliveryLoop times oracle uid campId message subject pd i cs st).1.length =
        cs.length ∧
      (∀ j, j < cs.length →
        (campaignDeliveryLoop times oracle uid campId message subject pd i cs st).1.getD j
            dfltEntry =
          campaignDeliveryEntry times oracle campId (i + j) (cs.getD j dfltPair.1)) ∧
      (∀ l ∈ (campaignDeliveryLoop times oracle uid campId message subject pd i cs
          st).2.2.2.commLogs, l ∈ st.commLogs ∨ l.status = .QUEUED) ∧
      (∀ m ∈ (campaignDeliveryLoop times oracle uid campId message subject pd i cs
          st).2.2.2.sentMessages, m ∈ st.sentMessages ∨ m.status = .QUEUED) := by
  intro cs
  induction cs with
  | nil =>
    intro i st
    refine ⟨rfl, ?_, ?_, ?_⟩
    · intro j hj; cases hj
    · intro l hl; exact Or.inl hl
    · intro m hm; exact Or.inl hm
  | cons c cs ih =>
    intro i st
    obtain ⟨hlen, hget, hlog, hmsg⟩ := ih (i + 1)
      (campaignDeliveryStep times oracle uid campId message subject pd i c st)
    have hstep_log : ∀ l ∈ (campaignDeliveryStep times oracle uid campId message subject pd
        i c st).commLogs, l ∈ st.commLogs ∨ l.status = .QUEUED := by
      intro l hl
      unfold campaignDeliveryStep at hl
      cases ho : oracle i with
      | none =>
        rw [ho] at hl
        simp only [addToQueue] at hl
        rcases List.mem_append.mp hl with h | h
        · exact Or.inl h
        · rcases List.mem_singleton.mp h with rfl
          exact Or.inr rfl
      | some e =>
        rw [ho] at hl
        exact Or.inl hl
    have hstep_msg : ∀ m ∈ (campaignDeliveryStep times oracle uid campId message subject pd
        i c st).sentMessages, m ∈ st.sentMessages ∨ m.status = .QUEUED := by
      intro m hm
      unfold campaignDeliveryStep at hm
      cases ho : oracle i with
      | none =>
        rw [ho] at hm
        simp only [addToQueue] at hm
        rcases List.mem_append.mp hm with h | h
        · exact Or.inl h
        · rcases List.mem_singleton.mp h with rfl
          exact Or.inr rfl
      | some e =>
        rw [ho] at hm
        exact Or.inl hm
    have hloop : campaignDeliveryLoop times oracle uid campId message subject pd i
        (c :: cs) st =
      (campaignDeliveryEntry times oracle campId i c ::
          (campaignDeliveryLoop times oracle uid campId message subject pd (i + 1) cs
            (campaignDeliveryStep times oracle uid campId message subject pd i c st)).1,
        (if (oracle i).isSome then
          (campaignDeliveryLoop times oracle uid campId message subject pd (i + 1) cs
            (campaignDeliveryStep times oracle uid campId message subject pd i c st)).2.1
         else
          (campaignDeliveryLoop times oracle uid campId message subject pd (i + 1) cs
            (campaignDeliveryStep times oracle uid campId message subject pd i c st)).2.1 + 1),
        (if (oracle i).isSome then
          (campaignDeliveryLoop times oracle uid campId message subject pd (i + 1) cs
            (campaignDeliveryStep times oracle uid campId message subject pd i c st)).2.2.1 + 1
         else
          (campaignDeliveryLoop times oracle uid campId message subject pd (i + 1) cs
            (campaignDeliveryStep times oracle uid campId message subject pd i c st)).2.2.1),
        (campaignDeliveryLoop times oracle uid campId message subject pd (i + 1) cs
          (campaignDeliveryStep times oracle uid campId message subject pd i c st)).2.2.2) := rfl
    refine ⟨?_, ?_, ?_, ?_⟩
    · rw [hloop]
      simpa using hlen
    · intro j hj
      cases j with
      | zero =>
        rw [hloop]
        simp
      | succ j =>
        have hj' : j < cs.length := by simpa using Nat.lt_of_succ_lt_succ hj
        have h := hget j hj'
        have hadd : i + 1 + j = i + (j + 1) := by omega
        rw [hadd] at h
        rw [hloop]
        simpa using h
    · intro l hl
      rw [hloop] at hl
      have := hlog l (by simpa using hl)
      rcases this with h | h
      · exact hstep_log l h
      · exact Or.inr h
    · intro m hm
      rw [hloop] at hm
      have := hmsg m (by simpa using hm)
      rcases this with h | h
      · exact hstep_msg m h
      · exact Or.inr h

/-- Claim C4, counterexample.  In `createAndDeliverCampaign`, customer
Bob's processing throws ("boom").  The failure is caught and the loop
carries on, but the catch block only pushes a FAILED entry onto the
*returned in-memory* delivery log: the final state holds **no**
communication-log record and **no** sent-message record at all — the
claimed FAILED pair is never persisted. -/
theorem c4_per_customer_failure_counterexample :
    createAndDeliverCampaign 0 (fun _ => 0) (fun _ => some "boom") 7 3
      "deal {name}" none none c4State =
      .ok (⟨"20", 1, 0, 0, 0, [⟨"11", "b@c.d", .FAILED, "campaign_20_11_0", some "boom"⟩]⟩,
        { c4State with
          campaigns := [⟨20, 7, 3, "deal {name}", "Campaign Email", .ACTIVE, 0⟩],
          nextId := 21 }) ∧
    ({ c4State with
       campaigns := [⟨20, 7, 3, "deal {name}", "Campaign Email", .ACTIVE, 0⟩],
       nextId := 21 } : AppState).commLogs = [] ∧
    ({ c4State with
       campaigns := [⟨20, 7, 3, "deal {name}", "Campaign Email", .ACTIVE, 0⟩],
       nextId := 21 } : AppState).sentMessages = [] := by
  exact ⟨rfl, rfl, rfl⟩

/-- Claim C4, amended.  Per-customer failures never abort the batch in
either delivery path, but only `deliverCampaign` persists the FAILED
pair: its loop appends exactly one communication-log and one sent-message
record per customer, FAILED with the thrown error (and the customer and
campaign references on the log) when that customer's write threw, SENT
otherwise.  `createAndDeliverCampaign`'s loop also continues through
every customer and reports the failure — FAILED with the error — but only
in the returned in-memory delivery log; everything it persists is a
QUEUED record, so a failing customer leaves no persisted record at
all. -/
theorem c4_per_customer_failure_amended
    (times : Nat → Int) (oracle : Nat → Option String) (campId uid : Nat)
    (subject storeName message : String) (mSubject : Option String)
    (pd : Option CustomData) (prs : List (Customer × PersonalizedMessage))
    (cs : List Customer) (i j : Nat) (st st2 : AppState)
    (hj : j < prs.length) (hj2 : j < cs.length) :
    let loop1 := deliverCampaignLoop times oracle campId uid subject storeName i prs st
    let loop2 := campaignDeliveryLoop times oracle uid campId message mSubject pd i cs st2
    (∃ t, loop1.commLogs = st.commLogs ++ t ∧ t.length = prs.length) ∧
    (∃ t, loop1.sentMessages = st.sentMessages ++ t ∧ t.length = prs.length) ∧
    (∀ e, oracle (i + j) = some e →
      (loop1.commLogs.getD (st.commLogs.length + j) dfltCommLog).status = .FAILED ∧
      (loop1.commLogs.getD (st.commLogs.length + j) dfltCommLog).error_message = some e ∧
      (loop1.commLogs.getD (st.commLogs.length + j) dfltCommLog).customer_id =
        some (prs.getD j dfltPair).1.id ∧
      (loop1.commLogs.getD (st.commLogs.length + j) dfltCommLog).campaign_id = some campId ∧
      (loop1.sentMessages.getD (st.sentMessages.length + j) dfltSentMsg).status = .FAILED ∧
      (loop1.sentMessages.getD (st.sentMessages.length + j) dfltSentMsg).errorMessage = some e) ∧
    (oracle (i + j) = none →
      (loop1.commLogs.getD (st.commLogs.length + j) dfltCommLog).status = .SENT ∧
      (loop1.sentMessages.getD (st.sentMessages.length + j) dfltSentMsg).status = .SENT) ∧
    loop2.1.length = cs.length ∧
    (∀ e, oracle (i + j) = some e →
      (loop2.1.getD j dfltEntry).status = .FAILED ∧
      (loop2.1.getD j dfltEntry).error = some e) ∧
    (∀ l ∈ loop2.2.2.2.commLogs, l ∈ st2.commLogs ∨ l.status = .QUEUED) ∧
    (∀ m ∈ loop2.2.2.2.sentMessages, m ∈ st2.sentMessages ∨ m.status = .QUEUED) := by
  intro loop1 loop2
  obtain ⟨ha1, ha2, -⟩ :=
    deliverCampaignLoop_append times oracle campId uid subject storeName prs i st
  obtain ⟨nid, hcm, hsm⟩ :=
    deliverCampaignLoop_getD times oracle campId uid subject storeName prs i st j hj
  obtain ⟨hb1, hb2, hb3, hb4⟩ :=
    campaignDeliveryLoop_spec times oracle uid campId message mSubject pd cs i st2
  refine ⟨ha1, ha2, ?_, ?_, hb1, ?_, hb3, hb4⟩
  · intro e he
    rw [hcm, hsm]
    simp [deliverStepCommLog, deliverStepSentMsg, he]
  · intro he
    rw [hcm, hsm]
    simp [deliverStepCommLog, deliverStepSentMsg, he]
  · intro e he
    rw [hb2 j hj2]
    simp [campaignDeliveryEntry, he]

/-- Witness for `c4_per_customer_failure_amended` at a one-customer list
whose processing throws. -/
theorem c4_per_customer_failure_amended_witness :
    ((deliverCampaignLoop (fun _ => 0) (fun _ => some "boom") 20 7 "S" "Your Store" 0
        [(⟨11, 7, "Bob", "b@c.d", none, some 5, some 1, none, 0⟩,
          personalizeMessage "deal {name}" ⟨11, 7, "Bob", "b@c.d", none, some 5, some 1, none, 0⟩
            "Valued Customer" CustomData.empty)]
        c4State).commLogs.getD 0 dfltCommLog).status = .FAILED ∧
    ((campaignDeliveryLoop (fun _ => 0) (fun _ => some "boom") 7 20 "deal {name}" none none 0
        [⟨11, 7, "Bob", "b@c.d", none, some 5, some 1, none, 0⟩]
        c4State).1.getD 0 dfltEntry).status = .FAILED := by
  have h := c4_per_customer_failure_amended (fun _ => 0) (fun _ => some "boom") 20 7
    "S" "Your Store" "deal {name}" none none
    [(⟨11, 7, "Bob", "b@c.d", none, some 5, some 1, none, 0⟩,
      personalizeMessage "deal {name}" ⟨11, 7, "Bob", "b@c.d", none, some 5, some 1, none, 0⟩
        "Valued Customer" CustomData.empty)]
    [⟨11, 7, "Bob", "b@c.d", none, some 5, some 1, none, 0⟩]
    0 0 c4State c4State (by decide) (by decide)
  exact ⟨((h.2.2.1 "boom" rfl).1), ((h.2.2.2.2.2.1 "boom" rfl).1)⟩

end CRM
